import Mathlib

set_option autoImplicit false

/-!
Shallow embedding of the schema-inference engine (`src/schema_detector.py`)
and the dynamic relational adapter (`src/db_manager.py`) of the
excel-to-streamlit repository, together with proofs settling the frozen
claims about them.
-/

namespace ExcelApp

/-! ## Cells and pandas columns -/

/-- A scalar cell of a loaded tabular dataset, as the pandas loader hands it
to the schema detector and the adapter.  A float is modelled by its integer
part together with a flag recording whether it carries a nonzero fractional
part (the source never does arithmetic on cell values, only type dispatch,
equality tests and serialization, so this is enough).  A timestamp is
identified by its canonical ISO-8601 string (`Timestamp.isoformat`). -/
inductive Cell where
  | intV (n : Int)
  | floatV (n : Int) (frac : Bool)
  | dateV (iso : String)
  | strV (s : String)
  | missing
  deriving DecidableEq, Repr

namespace Cell

def isInt : Cell → Bool
  | .intV _ => true
  | _ => false

def isFloat : Cell → Bool
  | .floatV _ _ => true
  | _ => false

def isDateCell : Cell → Bool
  | .dateV _ => true
  | _ => false

def isMissing : Cell → Bool
  | .missing => true
  | _ => false

def isStr : Cell → Bool
  | .strV _ => true
  | _ => false

/-- Numeric cells (Python int or float). -/
def isNum (c : Cell) : Bool := c.isInt || c.isFloat

/-- A numeric cell whose mathematical value has zero fractional part. -/
def zeroFrac : Cell → Bool
  | .intV _ => true
  | .floatV _ f => !f
  | _ => false

end Cell

/-- The pandas storage dtype of one column. -/
inductive Dtype where
  | dtInt
  | dtFloat
  | dtDatetime
  | dtObject
  deriving DecidableEq, Repr

/-- Dtype inference for a column of cells, as `pandas.read_excel` (or the
`DataFrame` constructor) produces it: a column of timestamps (missing cells
stored as `NaT`) is `datetime64`; a column of integers with no missing cell
is `int64`; any other all-numeric-or-missing column is `float64` (missing
cells are stored as `NaN`, which forces the float dtype); everything else is
`object`. -/
def colDtype (cells : List Cell) : Dtype :=
  if cells.all (fun c => c.isDateCell || c.isMissing) && cells.any Cell.isDateCell then
    .dtDatetime
  else if !cells.isEmpty && cells.all Cell.isInt then
    .dtInt
  else if cells.all (fun c => c.isNum || c.isMissing) then
    .dtFloat
  else
    .dtObject

/-- A pandas DataFrame: ordered columns, each a label paired with its cells
(column-major; all columns of a well-formed frame have the same length). -/
structure DataFrame where
  cols : List (String × List Cell)
  deriving DecidableEq, Repr

namespace DataFrame

/-- Column labels in order (`df.columns`). -/
def labels (df : DataFrame) : List String := df.cols.map Prod.fst

/-- Number of rows (length of the first column; `len(df)`). -/
def nRows (df : DataFrame) : Nat :=
  match df.cols with
  | [] => 0
  | c :: _ => c.2.length

/-- Pandas `df.empty`: true when either axis has length zero. -/
def isEmptyDf (df : DataFrame) : Bool := df.nRows == 0 || df.cols.isEmpty

/-- All columns whose label is `name` (pandas label-based indexing). -/
def colsNamed (df : DataFrame) (name : String) : List (List Cell) :=
  (df.cols.filter (fun c => c.1 == name)).map Prod.snd

/-- Pandas `df[name]` as the detector uses it: with one matching label the
result is a Series; with a duplicated label pandas returns a DataFrame and
every scalar-boolean use the detector then makes of it
(`if df[col].isna().all():`, `if df[col].notna().any():`) raises
`ValueError: The truth value of a ... is ambiguous`; a missing label raises
`KeyError`.  Both failure modes are modelled as an error at the lookup. -/
def series (df : DataFrame) (name : String) : Except Unit (List Cell) :=
  match df.colsNamed name with
  | [c] => .ok c
  | _ => .error ()

/-- The cells of the first column labelled `name` (`[]` when absent); a total
companion to `series` used to state specifications. -/
def cellsOf (df : DataFrame) (name : String) : List Cell :=
  match df.cols.find? (fun c => c.1 == name) with
  | some c => c.2
  | none => []

/-- Replace the column labels positionally (`df.columns = names`). -/
def renameCols (df : DataFrame) (names : List String) : DataFrame :=
  ⟨List.zipWith (fun n c => (n, c.2)) names df.cols⟩

end DataFrame

/-! ## `schema_detector.clean_column_name` -/

/-- Python `str.isspace`-style whitespace, restricted to the ASCII range in
which the repository's data lives. -/
def pyIsSpace (c : Char) : Bool :=
  c = ' ' || c = '\t' || c = '\n' || c = '\r' || c = '\x0b' || c = '\x0c'

/-- Python `str.isalnum` restricted to ASCII letters and digits. -/
def pyIsAlnum (c : Char) : Bool := c.isAlpha || c.isDigit

/-- Python `str.isdigit` restricted to ASCII digits. -/
def pyIsDigit (c : Char) : Bool := c.isDigit

/-- Python `str.strip()`: drop leading and trailing whitespace. -/
def pyStrip (s : List Char) : List Char :=
  ((s.dropWhile pyIsSpace).reverse.dropWhile pyIsSpace).reverse

/-- The character-level body of `clean_column_name`: strip surrounding
whitespace (`str(name).strip()`), replace spaces with `_`
(`.replace(" ", "_")`), then replace every character that is not
alphanumeric or `_` with `_` (the `"".join(...)` comprehension). -/
def cleanedChars (l : List Char) : List Char :=
  ((pyStrip l).map (fun c => if c = ' ' then '_' else c)).map
    (fun c => if pyIsAlnum c || c = '_' then c else '_')

/-- The digit-guarding step of `clean_column_name`: put `col_` in front of a
nonempty result that starts with a digit. -/
def digitGuard : List Char → List Char
  | [] => []
  | c :: t => if pyIsDigit c then "col_".data ++ (c :: t) else c :: t

/-- `schema_detector.clean_column_name`: strip surrounding whitespace,
replace spaces with `_`, replace every character that is not alphanumeric or
`_` with `_`, put `col_` in front when the result starts with a digit, and
fall back to `Column_A` when the result is empty. -/
def clean_column_name (name : String) : String :=
  let s4 := digitGuard (cleanedChars name.data)
  if s4.isEmpty then "Column_A" else ⟨s4⟩

/-! ## `schema_detector.infer_column_types` -/

/-- Per-scalar success of `pandas.to_datetime(..., errors="raise")`, the
check behind `is_date_column`: native timestamps and numbers (epoch values)
always convert, a missing cell becomes `NaT` without raising, and a string
converts when it is a calendar date; the accepted string language is
modelled as ISO `YYYY-MM-DD` (a simplified stand-in for the library's
parser, on which no claim depends). -/
def cellParsesAsDate : Cell → Bool
  | .dateV _ => true
  | .intV _ => true
  | .floatV _ _ => true
  | .missing => true
  | .strV s =>
      s.length == 10 &&
      (s.data.enum.all fun ci =>
        if ci.1 == 4 || ci.1 == 7 then ci.2 == '-' else ci.2.isDigit)

/-- `schema_detector.is_date_column`: `pd.to_datetime(series, errors="raise")`
succeeds exactly when every value converts. -/
def is_date_column (cells : List Cell) : Bool := cells.all cellParsesAsDate

/-- The per-column body of `schema_detector.infer_column_types`: all-missing
columns default to `str`; a `datetime64` column is `date`; then, over the
non-missing values (whose dtype equals the column's, since `dropna` keeps
the dtype), integer dtype gives `int`, float dtype gives `float`, a column
that converts to datetime gives `date`, and anything else gives `str`. -/
def inferOneType (cells : List Cell) : String :=
  if cells.all Cell.isMissing then "str"
  else if colDtype cells == .dtDatetime then "date"
  else
    let nonNull := cells.filter (fun c => !c.isMissing)
    if nonNull.length == 0 then "str"
    else if colDtype cells == .dtInt then "int"
    else if colDtype cells == .dtFloat then "float"
    else if is_date_column nonNull then "date"
    else "str"

/-- `schema_detector.infer_column_types`: one inferred type per column, in
column order; a duplicated label makes the very first pandas boolean test on
`df[col]` raise (see `DataFrame.series`), which the caller surfaces as a
`SchemaDetectionError`. -/
def infer_column_types (df : DataFrame) : Except Unit (List (String × String)) :=
  df.labels.foldlM
    (fun acc l => do
      let cells ← df.series l
      pure (acc ++ [(l, inferOneType cells)]))
    []

/-! ## `schema_detector.detect_primary_key` -/

/-- The uniqueness test `detect_primary_key` applies to one column:
`df[col].notna().any()` and `nunique == total and total > 0`, where
`nunique` counts distinct non-missing values and `total` counts non-missing
values. -/
def colQualifies (cells : List Cell) : Bool :=
  let nonNull := cells.filter (fun c => !c.isMissing)
  !nonNull.isEmpty && nonNull.dedup.length == nonNull.length

/-- The `for col in columns` loop of `detect_primary_key`: scan the columns
in order, skipping every occurrence of the first column's name, and return
the first qualifying column; fall through to the synthetic key `"id"`. -/
def pkScan (df : DataFrame) (first : String) : List String → Except Unit String
  | [] => .ok "id"
  | col :: rest =>
    if col == first then pkScan df first rest
    else do
      let cells ← df.series col
      if colQualifies cells then pure col else pkScan df first rest

/-- `schema_detector.detect_primary_key`: with no columns return `"id"`;
otherwise test the first column, then scan the remaining columns in order,
returning the first column all of whose non-missing values are distinct and
number at least one; with no qualifying column return `"id"`. -/
def detect_primary_key (df : DataFrame) (columns : List String) : Except Unit String :=
  match columns with
  | [] => .ok "id"
  | first :: _ => do
      let cells ← df.series first
      if colQualifies cells then pure first
      else pkScan df first columns

/-! ## `schema_detector.detect_schema` -/

/-- The inferred schema returned by `detect_schema`: ordered sanitized
column names, a name-to-type mapping, and the primary-key designation. -/
structure Schema where
  columns : List String
  types : List (String × String)
  primary_key : String
  deriving DecidableEq, Repr

/-- Auto-generated labels `Column1 .. ColumnN` used when the sheet has no
header row. -/
def autoNames (n : Nat) : List String :=
  (List.range n).map (fun i => "Column" ++ toString (i + 1))

/-- The header-handling step of `detect_schema`: when the first label
carries pandas' anonymous-column marker (`Unnamed...`), replace all labels
with `Column1 .. ColumnN`. -/
def headerFixed (df : DataFrame) : DataFrame :=
  match df.labels with
  | [] => df
  | l :: _ =>
      if "Unnamed".isPrefixOf l then df.renameCols (autoNames df.cols.length) else df

/-- The sanitized column list of `detect_schema`
(`columns = [clean_column_name(col) for col in df.columns]`, after the
header fix). -/
def schemaColumns (df : DataFrame) : List String :=
  (headerFixed df).labels.map clean_column_name

/-- The frame `detect_schema` works on after `df.columns = columns`: the
header-fixed frame with sanitized labels. -/
def sanitizedFrame (df : DataFrame) : DataFrame :=
  (headerFixed df).renameCols (schemaColumns df)

/-- `schema_detector.detect_schema`, from the point where the frame is
loaded: reject an empty frame (`df.empty`, i.e. either axis of length zero)
or a frame with no columns; synthesize labels when the header is absent;
sanitize all labels in order; infer the per-column types; pick a primary
key.  Every error raised on the way (including the pandas errors provoked by
duplicated sanitized labels) is caught and re-raised as
`SchemaDetectionError`, modelled as the single error value. -/
def detect_schema (df : DataFrame) : Except Unit Schema :=
  if df.isEmptyDf then .error ()
  else if df.cols.length == 0 then .error ()
  else
    match infer_column_types (sanitizedFrame df) with
    | .error e => .error e
    | .ok types =>
      match detect_primary_key (sanitizedFrame df) (schemaColumns df) with
      | .error e => .error e
      | .ok pk => .ok ⟨schemaColumns df, types, pk⟩

/-! ## The SQLite store -/

/-- A stored SQLite value: integer, real (same modelling as `Cell.floatV`),
text, or NULL. -/
inductive SCell where
  | sInt (n : Int)
  | sReal (n : Int) (frac : Bool)
  | sText (s : String)
  | sNull
  deriving DecidableEq, Repr

/-- A physical column: name, declared type (its affinity), whether it is the
primary key, and whether it was declared `AUTOINCREMENT`. -/
structure Column where
  name : String
  affin : String
  isPk : Bool
  isAutoInc : Bool
  deriving DecidableEq, Repr

/-- The managed relation: physical columns in order and rows in insertion
order (each row positionally aligned with `cols`). -/
structure Table where
  cols : List Column
  rows : List (List SCell)
  deriving DecidableEq, Repr

/-- Recognize a well-formed integer numeral, for SQLite's text-to-number
affinity conversion. -/
def intText? (s : String) : Option Int :=
  match s.data with
  | '-' :: (d :: ds) => if (d :: ds).all Char.isDigit then some (-(String.toNat! ⟨d :: ds⟩)) else none
  | d :: ds => if (d :: ds).all Char.isDigit then some (String.toNat! ⟨d :: ds⟩) else none
  | [] => none

/-- Decimal text of a stored real, as SQLite's TEXT affinity renders it.
The model tracks only whether the fractional part is nonzero, so a nonzero
fraction is rendered with a fixed digit; no claim depends on this text. -/
def realText (n : Int) (frac : Bool) : String :=
  toString n ++ (if frac then ".5" else ".0")

/-- SQLite type affinity applied to a value bound into a column: INTEGER
affinity turns lossless reals and integer numerals into integers, REAL
affinity turns integers and integer numerals into reals, TEXT affinity
renders numbers as text; NULL always passes through. -/
def applyAffinity (affin : String) (v : SCell) : SCell :=
  match v with
  | .sNull => .sNull
  | .sInt n =>
      if affin == "REAL" then .sReal n false
      else if affin == "TEXT" then .sText (toString n)
      else v
  | .sReal n frac =>
      if affin == "INTEGER" && !frac then .sInt n
      else if affin == "TEXT" then .sText (realText n frac)
      else v
  | .sText s =>
      if affin == "INTEGER" then
        match intText? s with
        | some n => .sInt n
        | none => v
      else if affin == "REAL" then
        match intText? s with
        | some n => .sReal n false
        | none => v
      else v

/-- SQL `=` between a bound value and a stored value: NULL compares equal to
nothing, integers and fraction-free reals compare numerically, everything
else by identity. -/
def sqlEq (a b : SCell) : Bool :=
  match a, b with
  | .sNull, _ => false
  | _, .sNull => false
  | .sInt n, .sReal m f => !f && n == m
  | .sReal n f, .sInt m => !f && n == m
  | a, b => a == b

namespace Table

/-- Position and declaration of the column named `name`. -/
def findCol (t : Table) (name : String) : Option (Nat × Column) :=
  t.cols.enum.find? (fun ic => ic.2.name == name)

/-- An `INTEGER PRIMARY KEY` column is an alias of the rowid. -/
def rowidAlias (c : Column) : Bool := c.isPk && c.affin == "INTEGER"

/-- The rowid the engine assigns to the next row of column `i` (one more
than the largest stored value; the never-reuse refinement of
`AUTOINCREMENT` is not modelled, no claim depends on the assigned values).
-/
def nextRowid (t : Table) (i : Nat) : Int :=
  (t.rows.foldl
    (fun m r => match r.getD i .sNull with | .sInt n => max m n | _ => m) 0) + 1

/-- Value bound to a column by an INSERT's name-to-value list. -/
def bindLookup (binding : List (String × SCell)) (name : String) : Option SCell :=
  (binding.find? (fun b => b.1 == name)).map Prod.snd

/-- The value physically stored in column `(i, c)` by an INSERT: a bound
value passes through the column's affinity, a rowid-alias column rejects
non-integers (`datatype mismatch`) and replaces NULL or absence with an
engine-assigned rowid, any other absent column stores NULL. -/
def storedCell (t : Table) (binding : List (String × SCell)) (i : Nat) (c : Column) :
    Except String SCell :=
  match bindLookup binding c.name with
  | some v =>
      if rowidAlias c then
        match applyAffinity c.affin v with
        | .sInt m => .ok (.sInt m)
        | .sNull => .ok (.sInt (t.nextRowid i))
        | _ => .error "datatype mismatch"
      else .ok (applyAffinity c.affin v)
  | none =>
      if rowidAlias c then .ok (.sInt (t.nextRowid i)) else .ok .sNull

/-- Execute `INSERT INTO t (names) VALUES (...)`: every named column must
exist, the stored row is built per `storedCell`, and a non-NULL value in
the primary-key column must not collide with a stored one (`UNIQUE
constraint failed`); a NULL in a non-rowid primary key is accepted, as
SQLite does. -/
def insertRow (t : Table) (binding : List (String × SCell)) : Except String Table :=
  match binding.find? (fun b => (t.findCol b.1).isNone) with
  | some b => .error ("table data has no column named " ++ b.1)
  | none => do
    let row ← t.cols.enum.mapM (fun ic => t.storedCell binding ic.1 ic.2)
    match t.cols.enum.find? (fun ic => ic.2.isPk) with
    | some (i, c) =>
        let v := row.getD i .sNull
        if v != .sNull && t.rows.any (fun r => r.getD i .sNull == v) then
          .error ("UNIQUE constraint failed: data." ++ c.name)
        else .ok ⟨t.cols, t.rows ++ [row]⟩
    | none => .ok ⟨t.cols, t.rows ++ [row]⟩

/-- Execute `DELETE FROM t WHERE col = ?`: the column must exist; rows whose
stored value compares SQL-equal to the bound value (after the column's
affinity) are removed; also yields the statement's rowcount. -/
def deleteWhere (t : Table) (colName : String) (v : SCell) : Except String (Table × Nat) :=
  match t.findCol colName with
  | none => .error ("no such column: " ++ colName)
  | some (i, c) =>
      let v' := applyAffinity c.affin v
      let keep := t.rows.filter (fun r => !(sqlEq v' (r.getD i .sNull)))
      .ok (⟨t.cols, keep⟩, t.rows.length - keep.length)

/-- Execute `UPDATE t SET ... WHERE pkCol = ?`: the key column and every SET
column must exist; on each row whose key cell matches, every SET column is
replaced by its bound value after affinity. -/
def updateWhere (t : Table) (pkCol : String) (v : SCell) (sets : List (String × SCell)) :
    Except String Table :=
  match t.findCol pkCol with
  | none => .error ("no such column: " ++ pkCol)
  | some (i, c) =>
    match sets.find? (fun p => (t.findCol p.1).isNone) with
    | some p => .error ("no such column: " ++ p.1)
    | none =>
      let v' := applyAffinity c.affin v
      .ok ⟨t.cols,
        t.rows.map (fun r =>
          if sqlEq v' (r.getD i .sNull) then
            (t.cols.enum.map (fun ic =>
              match bindLookup sets ic.2.name with
              | some w => applyAffinity ic.2.affin w
              | none => r.getD ic.1 .sNull))
          else r)⟩

end Table

/-! ## The dynamic relational adapter (`db_manager.DatabaseManager`) -/

/-- The Python exceptions the adapter can let escape: the repository's
`DatabaseError` (its `StoreError`, wrapping an engine message), pandas'
own `DatabaseError` (raised by `pd.read_sql_query` and escaping `read_all`
unwrapped, since it is not an `sqlite3.Error`), and the unguarded
`IndexError` of `update_record`. -/
inductive PyErr where
  | databaseError (msg : String)
  | pandasError (msg : String)
  | indexError
  deriving DecidableEq, Repr

/-- How a failing statement escapes the connection body: as an
`sqlite3.Error` (which `get_connection`'s handler catches and wraps), or
as pandas' `DatabaseError` — `pd.read_sql_query` catches the engine's
`sqlite3.Error` itself and re-raises its own
`DatabaseError("Execution failed on sql ...")`, a class unrelated to
`sqlite3.Error`. -/
inductive EngineErr where
  | sqlite (msg : String)
  | pandas (msg : String)
  deriving DecidableEq, Repr

/-- Outcome of one public adapter operation: the committed database after
the call, the number of SQL statements sent to the engine, and the returned
value or escaped exception. -/
structure OpResult (α : Type) where
  db : Option Table
  stmts : Nat
  res : Except PyErr α
  deriving Repr

/-- `DatabaseManager.get_connection`: the body runs its statements against a
working copy of the committed database; on success `conn.commit()` publishes
the working copy; on an `sqlite3.Error` `conn.rollback()` discards it —
leaving the committed database exactly as it was — and one `DatabaseError`
wrapping the engine message is raised; any other exception (pandas' own
`DatabaseError`) sails through the `except sqlite3.Error` handler
unwrapped, the close in `finally` discarding the uncommitted working copy;
`conn.close()` runs either way. -/
def withConnection {α : Type} (db : Option Table)
    (body : Option Table → Nat × Except EngineErr (Option Table × α)) : OpResult α :=
  match body db with
  | (n, .ok (w, a)) => ⟨w, n, .ok a⟩
  | (n, .error (.sqlite e)) =>
      ⟨db, n, .error (.databaseError ("Database operation failed: " ++ e))⟩
  | (n, .error (.pandas e)) => ⟨db, n, .error (.pandasError e)⟩

/-- `DatabaseManager._map_type_to_sqlite`: logical-to-physical type mapping,
dates stored as ISO text, unknown types falling back to TEXT. -/
def _map_type_to_sqlite (python_type : String) : String :=
  if python_type == "int" then "INTEGER"
  else if python_type == "float" then "REAL"
  else if python_type == "str" then "TEXT"
  else if python_type == "date" then "TEXT"
  else "TEXT"

/-- Python `dict.get(k, dflt)` over the schema's type mapping. -/
def dictGet (d : List (String × String)) (k : String) (dflt : String) : String :=
  match d.find? (fun p => p.1 == k) with
  | some p => p.2
  | none => dflt

/-- The column definitions `create_table` emits: one column per schema
entry in order; the column matching the primary key is declared
`INTEGER PRIMARY KEY AUTOINCREMENT` when the key is the synthetic `"id"`,
and `<type> PRIMARY KEY` otherwise.  When the synthetic key `"id"` is not
among the schema columns, no `id` column is emitted at all. -/
def colDefFor (schema : Schema) (col : String) : Column :=
  let colType := _map_type_to_sqlite (dictGet schema.types col "str")
  if col == schema.primary_key then
    if schema.primary_key == "id" then ⟨col, "INTEGER", true, true⟩
    else ⟨col, colType, true, false⟩
  else ⟨col, colType, false, false⟩

def buildColDefs (schema : Schema) : List Column :=
  schema.columns.map (colDefFor schema)

/-- The reserved words of SQLite's grammar — the keywords with no
identifier fallback, which cannot stand as bare (unquoted) column names in
the DDL/DML the adapter interpolates: SQLite rejects such a statement at
prepare time with an `OperationalError`.  (The remaining keywords, e.g.
`KEY` or `ABORT`, fall back to identifiers and are accepted bare.) -/
def sqlReservedWords : List String :=
  ["ADD", "ALL", "ALTER", "AND", "AS", "AUTOINCREMENT", "BETWEEN", "CASE",
   "CHECK", "COLLATE", "COMMIT", "CONSTRAINT", "CREATE", "DEFAULT",
   "DEFERRABLE", "DELETE", "DISTINCT", "DROP", "ELSE", "ESCAPE", "EXCEPT",
   "EXISTS", "FOREIGN", "FROM", "GROUP", "HAVING", "IN", "INDEX", "INSERT",
   "INTERSECT", "INTO", "IS", "ISNULL", "JOIN", "LIMIT", "NOT", "NOTNULL",
   "NULL", "ON", "OR", "ORDER", "PRIMARY", "REFERENCES", "RETURNING",
   "SELECT", "SET", "TABLE", "THEN", "TO", "TRANSACTION", "UNION",
   "UNIQUE", "UPDATE", "USING", "VALUES", "WHEN", "WHERE"]

/-- ASCII uppercasing of one character (SQL keywords are case-insensitive). -/
def asciiUpper (c : Char) : Char :=
  if c.toNat ≥ 97 && c.toNat ≤ 122 then Char.ofNat (c.toNat - 32) else c

/-- Case-insensitive membership of a name in the reserved-word list. -/
def isSqlReserved (s : String) : Bool :=
  sqlReservedWords.contains (String.mk (s.data.map asciiUpper))

/-- Acceptable SQL identifier for the interpolated column names: nonempty,
alphanumeric-or-underscore, not digit-leading, and (keywords being
case-insensitive) not one of SQLite's reserved words. -/
def sqlIdentOk (s : String) : Bool :=
  !s.isEmpty && s.data.all (fun c => pyIsAlnum c || c = '_') &&
  !(pyIsDigit (s.data.headD 'x')) &&
  !(isSqlReserved s)

/-- Whether the generated `CREATE TABLE` statement prepares without an
engine error: a nonempty column list of well-formed, pairwise-distinct
identifiers (SQLite rejects an empty column list and duplicate column
names while preparing, even under `IF NOT EXISTS`). -/
def createTableValid (schema : Schema) : Bool :=
  !schema.columns.isEmpty &&
  schema.columns.all sqlIdentOk &&
  decide schema.columns.Nodup

/-- The connection-scoped body of `create_table` (the `with
self.get_connection()` block): run the generated `CREATE TABLE IF NOT
EXISTS`; when the managed relation already exists the statement is a no-op,
otherwise the table is created empty with the emitted column definitions. -/
def create_table_body (schema : Schema) (w : Option Table) :
    Nat × Except EngineErr (Option Table × Unit) :=
  (1, if !(createTableValid schema) then .error (.sqlite "SQL error in CREATE TABLE")
      else match w with
        | some t => .ok (some t, ())
        | none => .ok (some ⟨buildColDefs schema, []⟩, ()))

/-- `DatabaseManager.create_table`: run the generated
`CREATE TABLE IF NOT EXISTS` in one connection scope. -/
def create_table (schema : Schema) (db : Option Table) : OpResult Unit :=
  withConnection db (create_table_body schema)

/-- Parameter binding of one dataset cell (`insert_data`'s row loop):
missing cells bind as NULL, timestamps as their `isoformat()` text, other
scalars as themselves. -/
def bindCell : Cell → SCell
  | .missing => .sNull
  | .dateV iso => .sText iso
  | .intV n => .sInt n
  | .floatV n f => .sReal n f
  | .strV s => .sText s

/-- The cell of row `i`, column `c` of the dataset, bound for insertion. -/
def dfRow (df : DataFrame) (colsSel : List String) (i : Nat) : List SCell :=
  colsSel.map (fun c => bindCell ((df.cellsOf c).getD i Cell.missing))

/-- All rows of the dataset restricted to the insert columns, bound for
insertion, in row order. -/
def dfBindRows (df : DataFrame) (colsSel : List String) : List (List SCell) :=
  (List.range df.nRows).map (dfRow df colsSel)

/-- `conn.executemany` of the generated INSERT over the bound rows: the
inserts run in order on the working table and the first engine error aborts
the batch. -/
def execInsertMany (t : Table) (colsSel : List String) :
    List (List SCell) → Except String Table
  | [] => .ok t
  | r :: rs => do
      let t' ← t.insertRow (colsSel.zip r)
      execInsertMany t' colsSel rs

/-- The insert column list of `insert_data`: when the primary key is the
synthetic `"id"` and the dataset has no `"id"` column, `"id"` is omitted so
the engine assigns it (the filter is then the identity); otherwise all
dataset columns are inserted. -/
def insertColsFor (df : DataFrame) (schema : Schema) : List String :=
  if schema.primary_key == "id" && !(df.labels.contains "id") then
    df.labels.filter (fun c => c != "id")
  else df.labels

/-- The connection-scoped body of `insert_data`: one batched INSERT of
every bound dataset row. -/
def insert_body (df : DataFrame) (schema : Schema) (w : Option Table) :
    Nat × Except EngineErr (Option Table × Unit) :=
  let colsSel := insertColsFor df schema
  (1, match w with
    | none => .error (.sqlite "no such table: data")
    | some t =>
        match execInsertMany t colsSel (dfBindRows df colsSel) with
        | .error e => .error (.sqlite e)
        | .ok t2 => .ok (some t2, ()))

/-- `DatabaseManager.insert_data` (bulk load): insert every dataset row in
one batched statement inside one connection scope. -/
def insert_data (df : DataFrame) (schema : Schema) (db : Option Table) : OpResult Unit :=
  withConnection db (insert_body df schema)

/-- Reading one stored value back into a dataset cell
(`pd.read_sql_query`): NULL reads back as a missing cell, numbers and text
as themselves (stored ISO date text stays text). -/
def readCell : SCell → Cell
  | .sNull => .missing
  | .sInt n => .intV n
  | .sReal n f => .floatV n f
  | .sText s => .strV s

/-- The connection-scoped body of `read_all`: `SELECT * FROM data` — every
row of the managed relation, column order equal to the physical order, row
order equal to insertion order.  When the statement fails (the table does
not exist), `pd.read_sql_query` catches the engine's `sqlite3.Error` and
re-raises pandas' own `DatabaseError` carrying
`Execution failed on sql ...` plus the engine message. -/
def read_body (w : Option Table) :
    Nat × Except EngineErr (Option Table × DataFrame) :=
  (1, match w with
    | none => .error (.pandas
        ("Execution failed on sql 'SELECT * FROM data': " ++ "no such table: data"))
    | some t =>
        .ok (some t,
          ⟨t.cols.enum.map (fun ic =>
            (ic.2.name, t.rows.map (fun r => readCell (r.getD ic.1 .sNull))))⟩))

/-- `DatabaseManager.read_all`: select every stored row in one connection
scope. -/
def read_all (db : Option Table) : OpResult DataFrame :=
  withConnection db read_body

/-- The value correspondence of the round-trip property: a timestamp is
replaced by its canonical ISO-8601 string, a missing value stays missing
(stored as NULL), every other scalar is unchanged. -/
def canonCell : Cell → Cell
  | .dateV iso => .strV iso
  | .missing => .missing
  | c => c

/-- Store-safety of one column, the proviso of the round-trip property: a
`float64` column holds only float-typed values or missing cells (as pandas
itself stores it), and an `object` column — one the classifier can only
call `date` (by string parsing) or `str` — holds only strings or missing
cells, so that SQLite's TEXT affinity does not re-render a numeric value
and no timestamp can collide with its own ISO text. -/
def storeSafeCells (cells : List Cell) : Bool :=
  (colDtype cells != .dtFloat || cells.all (fun c => c.isFloat || c.isMissing)) &&
  (colDtype cells != .dtObject || cells.all (fun c => c.isStr || c.isMissing))

/-- `DatabaseManager.create_record`: insert one record and return
`cursor.lastrowid` (modelled as the new row count; no claim depends on the
value). -/
def create_record_body (data : List (String × Cell)) (w : Option Table) :
    Nat × Except EngineErr (Option Table × Int) :=
  (1, match w with
    | none => .error (.sqlite "no such table: data")
    | some t =>
        match t.insertRow (data.map (fun p => (p.1, bindCell p.2))) with
        | .error e => .error (.sqlite e)
        | .ok t2 => .ok (some t2, (t2.rows.length : Int)))

def create_record (data : List (String × Cell)) (db : Option Table) : OpResult Int :=
  withConnection db (create_record_body data)

/-- `DatabaseManager.update_record`: an empty record raises an unguarded
`IndexError` from `list(data.keys())[0]` before any connection is opened;
otherwise the primary-key column is taken to be `"id"` when the record has
that key and the record's first key otherwise, the SET clause ranges over
every other field, and an empty SET clause returns as a logged no-op with
no SQL executed. -/
def update_body (record_id : Cell) (primary_key : String)
    (sets : List (String × Cell)) (w : Option Table) :
    Nat × Except EngineErr (Option Table × Unit) :=
  (1, match w with
    | none => .error (.sqlite "no such table: data")
    | some t =>
        match t.updateWhere primary_key (bindCell record_id)
            (sets.map (fun p => (p.1, bindCell p.2))) with
        | .error e => .error (.sqlite e)
        | .ok t2 => .ok (some t2, ()))

def update_record (record_id : Cell) (data : List (String × Cell)) (db : Option Table) :
    OpResult Unit :=
  match data with
  | [] => ⟨db, 0, .error .indexError⟩
  | (k0, _) :: _ =>
    let primary_key := if (data.map Prod.fst).contains "id" then "id" else k0
    let sets := data.filter (fun p => p.1 != primary_key)
    if sets.isEmpty then ⟨db, 0, .ok ()⟩
    else withConnection db (update_body record_id primary_key sets)

/-- The `PRAGMA table_info(data)` introspection of `delete_record`: the
name of the first column flagged as primary key, defaulting to the first
column; `none` when the pragma returns no rows. -/
def pragmaPkCol (t : Table) : Option String :=
  match t.cols with
  | [] => none
  | c0 :: _ => some (((t.cols.find? (fun c => c.isPk)).map (fun c => c.name)).getD c0.name)

/-- `DatabaseManager.delete_record`: first `DELETE ... WHERE id = ?` (which
is an engine error when the relation has no `id` column); when that
statement's rowcount is zero, rediscover the primary-key column via
`PRAGMA table_info` and retry the delete on it. -/
def delete_body (record_id : Cell) (w : Option Table) :
    Nat × Except EngineErr (Option Table × Unit) :=
  match w with
  | none => (1, .error (.sqlite "no such table: data"))
  | some t =>
    match t.deleteWhere "id" (bindCell record_id) with
    | .error e => (1, .error (.sqlite e))
    | .ok (t1, n) =>
      if n == 0 then
        match pragmaPkCol t1 with
        | none => (2, .ok (some t1, ()))
        | some pk =>
          match t1.deleteWhere pk (bindCell record_id) with
          | .error e => (3, .error (.sqlite e))
          | .ok (t2, _) => (3, .ok (some t2, ()))
      else (1, .ok (some t1, ()))

def delete_record (record_id : Cell) (db : Option Table) : OpResult Unit :=
  withConnection db (delete_body record_id)

/-- The public adapter surface, for claims quantifying over all operations. -/
inductive AdapterOp where
  | opCreateTable (schema : Schema)
  | opBulkLoad (df : DataFrame) (schema : Schema)
  | opCreateRecord (data : List (String × Cell))
  | opReadAll
  | opUpdateRecord (key : Cell) (data : List (String × Cell))
  | opDeleteRecord (key : Cell)

/-- Discard an operation's return value, keeping state, statement count and
error status. -/
def OpResult.toUnit {α : Type} (r : OpResult α) : OpResult Unit :=
  ⟨r.db, r.stmts, r.res.map (fun _ => ())⟩

/-- Run one public adapter operation against the committed database. -/
def runOp : AdapterOp → Option Table → OpResult Unit
  | .opCreateTable s, db => create_table s db
  | .opBulkLoad df s, db => insert_data df s db
  | .opCreateRecord d, db => (create_record d db).toUnit
  | .opReadAll, db => (read_all db).toUnit
  | .opUpdateRecord k d, db => update_record k d db
  | .opDeleteRecord k, db => delete_record k db

/-! ## Helper lemmas -/

theorem withConnection_error_shape {α : Type} (db : Option Table)
    (body : Option Table → Nat × Except EngineErr (Option Table × α)) (m : String)
    (h : (withConnection db body).res = .error (.databaseError m)) :
    (withConnection db body).db = db ∧ ∃ e, m = "Database operation failed: " ++ e := by
  rcases hb : body db with ⟨n, r⟩
  cases r with
  | ok p => simp [withConnection, hb] at h
  | error ee =>
      cases ee with
      | sqlite e =>
          refine ⟨by simp [withConnection, hb], e, ?_⟩
          simp [withConnection, hb] at h
          exact h.symm
      | pandas e => simp [withConnection, hb] at h

theorem withConnection_error_split {α : Type} (db : Option Table)
    (body : Option Table → Nat × Except EngineErr (Option Table × α)) (e : PyErr)
    (h : (withConnection db body).res = .error e) :
    (withConnection db body).db = db ∧
    ((∃ s, e = .databaseError ("Database operation failed: " ++ s)) ∨
      ∃ s, e = .pandasError s) := by
  rcases hb : body db with ⟨n, r⟩
  cases r with
  | ok p => simp [withConnection, hb] at h
  | error ee =>
      cases ee with
      | sqlite s =>
          have he : e = .databaseError ("Database operation failed: " ++ s) := by
            simp [withConnection, hb] at h
            exact h.symm
          exact ⟨by simp [withConnection, hb], .inl ⟨s, he⟩⟩
      | pandas s =>
          have he : e = .pandasError s := by
            simp [withConnection, hb] at h
            exact h.symm
          exact ⟨by simp [withConnection, hb], .inr ⟨s, he⟩⟩

theorem errSplit_prefix {e : PyErr}
    (h2 : (∃ s, e = .databaseError ("Database operation failed: " ++ s)) ∨
      ∃ s, e = .pandasError s) :
    ∀ m, e = .databaseError m → ∃ s, m = "Database operation failed: " ++ s := by
  intro m hm
  rcases h2 with ⟨s2, hs⟩ | ⟨s2, hs⟩
  · exact ⟨s2, PyErr.databaseError.inj (hm.symm.trans hs)⟩
  · exact PyErr.noConfusion (hm.symm.trans hs)

theorem toUnit_error_res {α : Type} (r : OpResult α) (e : PyErr) :
    (r.toUnit).res = .error e ↔ r.res = .error e := by
  cases hr : r.res <;> simp [OpResult.toUnit, hr, Except.map]

/-! ## Claim theorems -/

/-- Claim C10: for every key value and database state, `update_record` on an
empty record mapping raises an unguarded `IndexError` (from indexing the
record's first key), not a `DatabaseError`, with no SQL statement executed
and the database untouched. -/
theorem C10_update_record_empty_raises_index_error (key : Cell) (db : Option Table) :
    update_record key [] db = ⟨db, 0, .error .indexError⟩ := rfl

/-- Claim C9: for every non-empty record, `update_record` resolves the
primary-key column as `"id"` when `"id"` is a key of the record and as the
record's first key otherwise; when every field of the record is that
resolved primary-key field, the call executes no SQL, leaves the database
unchanged, and returns normally. -/
theorem C9_update_record_pk_only_noop (key : Cell) (k0 : String) (v : Cell)
    (rest : List (String × Cell)) (db : Option Table)
    (honly : ∀ p ∈ (k0, v) :: rest,
      p.1 = (if (((k0, v) :: rest).map Prod.fst).contains "id" then "id" else k0)) :
    update_record key ((k0, v) :: rest) db = ⟨db, 0, .ok ()⟩ := by
  have hsets : (((k0, v) :: rest).filter
      (fun p => p.1 != (if (((k0, v) :: rest).map Prod.fst).contains "id" then "id" else k0)))
      = [] := by
    rw [List.filter_eq_nil_iff]
    intro p hp
    simpa using honly p hp
  simp only [update_record, hsets, List.isEmpty_nil, if_true]

theorem C9_update_record_pk_only_noop_witness :
    update_record (Cell.intV 1) [("id", Cell.intV 2)] none = ⟨none, 0, .ok ()⟩ :=
  C9_update_record_pk_only_noop (Cell.intV 1) "id" (Cell.intV 2) [] none (by decide)

/-- Claim C6, counterexample: `read_all` on a database without the managed
relation is an engine failure inside `pd.read_sql_query`, but what reaches
the caller is pandas' own `DatabaseError` (`Execution failed on sql ...`),
not the repository's `StoreError`: pandas catches the `sqlite3.Error`
itself and re-raises its own class, which neither `except sqlite3.Error`
handler catches, so no `Database operation failed:` wrapping ever
happens — where the claim promises a single `StoreError` for every
engine failure of every public operation. -/
theorem C6_counterexample_read_all_unwrapped :
    (runOp AdapterOp.opReadAll none).res
      = .error (.pandasError ("Execution failed on sql 'SELECT * FROM data': " ++ "no such table: data")) ∧
    ∀ m, (runOp AdapterOp.opReadAll none).res ≠ .error (.databaseError m) :=
  ⟨rfl, fun m h => PyErr.noConfusion (Except.error.inj h)⟩

/-- Claim C6 (amended): for every public adapter operation and database
state, a failing call leaves the committed database exactly as it was (the
in-flight transaction is rolled back or discarded unpublished, no partial
commit is visible, the connection is released); every raised repository
`StoreError` carries the underlying engine message behind the
`Database operation failed:` prefix — but an engine failure of `read_all`
surfaces as pandas' own `DatabaseError`, unwrapped, because
`pd.read_sql_query` re-raises it as a class no `except sqlite3.Error`
handler catches. -/
theorem C6_engine_failure_amended (op : AdapterOp) (db : Option Table) (e : PyErr)
    (h : (runOp op db).res = .error e) :
    (runOp op db).db = db ∧
    (∀ m, e = .databaseError m → ∃ s, m = "Database operation failed: " ++ s) ∧
    (op = AdapterOp.opReadAll →
      e = .pandasError ("Execution failed on sql 'SELECT * FROM data': " ++ "no such table: data")) := by
  cases op with
  | opCreateTable sc =>
      obtain ⟨h1, h2⟩ := withConnection_error_split db _ e h
      exact ⟨h1, errSplit_prefix h2, fun heq => AdapterOp.noConfusion heq⟩
  | opBulkLoad df sc =>
      obtain ⟨h1, h2⟩ := withConnection_error_split db _ e h
      exact ⟨h1, errSplit_prefix h2, fun heq => AdapterOp.noConfusion heq⟩
  | opDeleteRecord k =>
      obtain ⟨h1, h2⟩ := withConnection_error_split db _ e h
      exact ⟨h1, errSplit_prefix h2, fun heq => AdapterOp.noConfusion heq⟩
  | opCreateRecord d =>
      have h' : (create_record d db).res = .error e :=
        (toUnit_error_res (create_record d db) _).mp h
      obtain ⟨h1, h2⟩ := withConnection_error_split db _ e h'
      exact ⟨h1, errSplit_prefix h2, fun heq => AdapterOp.noConfusion heq⟩
  | opReadAll =>
      have h' : (read_all db).res = .error e := (toUnit_error_res (read_all db) _).mp h
      cases db with
      | some t => exact Except.noConfusion h'
      | none =>
          have he : e = .pandasError ("Execution failed on sql 'SELECT * FROM data': " ++ "no such table: data") :=
            (Except.error.inj h').symm
          exact ⟨rfl, fun m hm => PyErr.noConfusion (he.symm.trans hm), fun _ => he⟩
  | opUpdateRecord k d =>
      cases d with
      | nil =>
          have he : e = PyErr.indexError := (Except.error.inj h).symm
          exact ⟨rfl, fun m hm => PyErr.noConfusion (he.symm.trans hm),
            fun heq => AdapterOp.noConfusion heq⟩
      | cons q rest =>
          rcases q with ⟨k0, v⟩
          simp only [runOp, update_record] at h
          by_cases hs : (((k0, v) :: rest).filter
              (fun q => q.1 != (if (((k0, v) :: rest).map Prod.fst).contains "id" then "id" else k0))).isEmpty
          · rw [if_pos hs] at h
            simp at h
          · rw [if_neg hs] at h
            obtain ⟨h1, h2⟩ := withConnection_error_split db _ e h
            refine ⟨?_, errSplit_prefix h2, fun heq => AdapterOp.noConfusion heq⟩
            show (update_record k ((k0, v) :: rest) db).db = db
            simp only [update_record]
            rw [if_neg hs]
            exact h1

theorem C6_engine_failure_amended_witness :
    (runOp AdapterOp.opReadAll none).res
      = .error (.pandasError ("Execution failed on sql 'SELECT * FROM data': " ++ "no such table: data")) ∧
    ((runOp AdapterOp.opReadAll none).db = none ∧
     (∀ m, PyErr.pandasError ("Execution failed on sql 'SELECT * FROM data': " ++ "no such table: data")
        = .databaseError m → ∃ s, m = "Database operation failed: " ++ s) ∧
     (AdapterOp.opReadAll = AdapterOp.opReadAll →
      PyErr.pandasError ("Execution failed on sql 'SELECT * FROM data': " ++ "no such table: data")
        = .pandasError ("Execution failed on sql 'SELECT * FROM data': " ++ "no such table: data"))) :=
  ⟨rfl, C6_engine_failure_amended AdapterOp.opReadAll none
    (.pandasError ("Execution failed on sql 'SELECT * FROM data': " ++ "no such table: data")) rfl⟩

/-- Claim C8: for every schema descriptor, a second `create_table` with the
same descriptor after a first successful call succeeds (the generated
statement is `CREATE TABLE IF NOT EXISTS`) and leaves the committed
database — in particular every stored row — unchanged. -/
theorem C8_create_table_idempotent (schema : Schema) (db : Option Table)
    (h : (create_table schema db).res = .ok ()) :
    create_table schema ((create_table schema db).db) =
      ⟨(create_table schema db).db, 1, .ok ()⟩ := by
  cases hv : createTableValid schema with
  | false => simp [create_table, create_table_body, withConnection, hv] at h
  | true => cases db <;> simp [create_table, create_table_body, withConnection, hv]

theorem C8_create_table_idempotent_witness :
    create_table ⟨["name"], [("name", "str")], "name"⟩
        ((create_table ⟨["name"], [("name", "str")], "name"⟩ none).db) =
      ⟨(create_table ⟨["name"], [("name", "str")], "name"⟩ none).db, 1, .ok ()⟩ :=
  C8_create_table_idempotent ⟨["name"], [("name", "str")], "name"⟩ none (by rfl)

/-- Claim C1, counterexample: the single-value column holding the float
`1.0` is non-empty, all-numeric, and every value has zero fractional part,
yet `infer_column_types` classifies it as `float`, not `integer` — the
classifier dispatches on the pandas storage dtype, not on fractional
residue. -/
theorem C1_counterexample_integral_float_column :
    [Cell.floatV 1 false] ≠ [] ∧
    [Cell.floatV 1 false].all Cell.isNum = true ∧
    [Cell.floatV 1 false].all Cell.zeroFrac = true ∧
    inferOneType [Cell.floatV 1 false] = "float" ∧
    inferOneType [Cell.floatV 1 false] ≠ "int" := by decide

/-- Claim C2, counterexample: on a managed relation whose primary-key column
is `name` (not `"id"`) and which has no column named `id` at all — exactly
what `create_table` builds for such a schema — the fast-path
`DELETE ... WHERE id = ?` is an engine error (`no such column: id`), so the
fallback never runs: `delete_record` raises a `DatabaseError` and the
matching row survives, where the claim promises an error-free two-phase
delete. -/
theorem C2_counterexample_no_id_column :
    (Table.mk [⟨"name", "TEXT", true, false⟩] [[SCell.sText "A"]]).cols.all
        (fun c => c.isPk → c.name = "name") = true ∧
    sqlEq (bindCell (Cell.strV "A")) (SCell.sText "A") = true ∧
    delete_record (Cell.strV "A")
        (some (Table.mk [⟨"name", "TEXT", true, false⟩] [[SCell.sText "A"]])) =
      ⟨some (Table.mk [⟨"name", "TEXT", true, false⟩] [[SCell.sText "A"]]), 1,
        .error (.databaseError "Database operation failed: no such column: id")⟩ := by
  refine ⟨by decide, by decide, ?_⟩
  rfl

/-- Claim C5, counterexample: the one-row, two-column dataset with labels
`"a b"` and `"a_b"` sanitizes to the duplicated column name `a_b`; pandas
label-indexing on the duplicated name then raises inside
`infer_column_types`, so `detect_schema` fails although the dataset has
nonzero rows and columns. -/
theorem C5_counterexample_duplicate_sanitized_names :
    (DataFrame.mk [("a b", [Cell.strV "x"]), ("a_b", [Cell.strV "y"])]).nRows = 1 ∧
    (DataFrame.mk [("a b", [Cell.strV "x"]), ("a_b", [Cell.strV "y"])]).cols.length = 2 ∧
    detect_schema (DataFrame.mk [("a b", [Cell.strV "x"]), ("a_b", [Cell.strV "y"])]) =
      .error () := by
  refine ⟨rfl, rfl, ?_⟩
  rfl

/-- Claim C7, counterexample: from the dataset whose single column `id`
holds the non-unique values `1, 1`, `infer` produces the synthetic primary
key `"id"` while a column named `id` exists, so `create_table` declares
`id INTEGER PRIMARY KEY AUTOINCREMENT`; `bulk_load` then inserts the
duplicated key values and fails with a UNIQUE-constraint `DatabaseError`,
so the round trip never reaches `read_all`. -/
theorem C7_counterexample_duplicate_id_column :
    detect_schema (DataFrame.mk [("id", [Cell.intV 1, Cell.intV 1])]) =
      .ok ⟨["id"], [("id", "int")], "id"⟩ ∧
    (create_table ⟨["id"], [("id", "int")], "id"⟩ none).res = .ok () ∧
    (insert_data (DataFrame.mk [("id", [Cell.intV 1, Cell.intV 1])])
        ⟨["id"], [("id", "int")], "id"⟩
        (create_table ⟨["id"], [("id", "int")], "id"⟩ none).db).res =
      .error (.databaseError "Database operation failed: UNIQUE constraint failed: data.id") := by
  refine ⟨?_, ?_, ?_⟩ <;> rfl

/-! ## Adapter lemmas and Claim C2 (amended) -/

theorem withConnection_ok {α : Type} (db : Option Table)
    (body : Option Table → Nat × Except EngineErr (Option Table × α))
    (n : Nat) (w : Option Table) (a : α) (h : body db = (n, .ok (w, a))) :
    withConnection db body = ⟨w, n, .ok a⟩ := by
  unfold withConnection
  rw [h]

theorem deleteWhere_found (t : Table) (name : String) (v : SCell) (i : Nat) (c : Column)
    (h : t.findCol name = some (i, c)) :
    t.deleteWhere name v =
      .ok (⟨t.cols, t.rows.filter
            (fun r => !(sqlEq (applyAffinity c.affin v) (r.getD i .sNull)))⟩,
        t.rows.length -
          (t.rows.filter
            (fun r => !(sqlEq (applyAffinity c.affin v) (r.getD i .sNull)))).length) := by
  unfold Table.deleteWhere
  rw [h]

theorem pragmaPkCol_of_find (t : Table) (cp : Column)
    (hpk : t.cols.find? (fun c => c.isPk) = some cp) :
    pragmaPkCol t = some cp.name := by
  rcases hc : t.cols with _ | ⟨c0, rest⟩
  · rw [hc] at hpk
    simp at hpk
  · unfold pragmaPkCol
    rw [hc]
    rw [hc] at hpk
    simp [hpk]

/-- Claim C2 (amended): the promised two-phase behavior — fast-path delete
affecting zero rows, then metadata discovery of the true primary-key column
and an error-free delete of the matching rows — holds only when the managed
relation, whose primary-key column is not named `id`, additionally has a
(non-key) column named `id` none of whose stored values matches the given
key; when no `id` column exists at all (as `create_table` builds for a
natural-key schema) the fast path is an engine error instead. -/
theorem C2_delete_record_metadata_fallback (key : Cell) (t : Table)
    (i : Nat) (cid : Column) (hid : t.findCol "id" = some (i, cid))
    (j : Nat) (cp : Column) (hp : t.findCol cp.name = some (j, cp))
    (hpk : t.cols.find? (fun c => c.isPk) = some cp)
    (hne : cp.name ≠ "id")
    (h0 : ∀ r ∈ t.rows,
      sqlEq (applyAffinity cid.affin (bindCell key)) (r.getD i .sNull) = false)
    (hmatch : ∃ r ∈ t.rows,
      sqlEq (applyAffinity cp.affin (bindCell key)) (r.getD j .sNull) = true) :
    delete_record key (some t) =
      ⟨some ⟨t.cols, t.rows.filter
          (fun r => !(sqlEq (applyAffinity cp.affin (bindCell key)) (r.getD j .sNull)))⟩,
        3, .ok ()⟩ ∧
    ∀ r ∈ t.rows,
      sqlEq (applyAffinity cp.affin (bindCell key)) (r.getD j .sNull) = true →
      r ∉ t.rows.filter
          (fun r => !(sqlEq (applyAffinity cp.affin (bindCell key)) (r.getD j .sNull))) := by
  have hkeep : t.rows.filter
      (fun r => !(sqlEq (applyAffinity cid.affin (bindCell key)) (r.getD i .sNull))) = t.rows :=
    List.filter_eq_self.mpr (fun r hr => by rw [h0 r hr]; rfl)
  have hfast := deleteWhere_found t "id" (bindCell key) i cid hid
  rw [hkeep] at hfast
  have hfast2 : t.deleteWhere "id" (bindCell key) = .ok (⟨t.cols, t.rows⟩, 0) := by
    rw [hfast]
    simp
  have hprag : pragmaPkCol ⟨t.cols, t.rows⟩ = some cp.name :=
    pragmaPkCol_of_find _ cp hpk
  have hsecond := deleteWhere_found (Table.mk t.cols t.rows) cp.name (bindCell key) j cp hp
  have hbody : delete_body key (some t) =
      (3, .ok (some ⟨t.cols, t.rows.filter
        (fun r => !(sqlEq (applyAffinity cp.affin (bindCell key)) (r.getD j .sNull)))⟩, ())) := by
    simp only [delete_body, hfast2, hprag, hsecond]
    rfl
  refine ⟨withConnection_ok (some t) (delete_body key) 3 _ () hbody, ?_⟩
  intro r hr hm hin
  rcases List.mem_filter.mp hin with ⟨-, hpred⟩
  rw [hm] at hpred
  exact absurd hpred (by decide)

theorem C2_delete_record_metadata_fallback_witness :
    delete_record (Cell.strV "A")
        (some ⟨[⟨"id", "INTEGER", false, false⟩, ⟨"name", "TEXT", true, false⟩],
          [[SCell.sInt 7, SCell.sText "A"], [SCell.sInt 8, SCell.sText "B"]]⟩) =
      ⟨some ⟨[⟨"id", "INTEGER", false, false⟩, ⟨"name", "TEXT", true, false⟩],
          [[SCell.sInt 8, SCell.sText "B"]]⟩, 3, .ok ()⟩ :=
  (C2_delete_record_metadata_fallback (Cell.strV "A")
    ⟨[⟨"id", "INTEGER", false, false⟩, ⟨"name", "TEXT", true, false⟩],
      [[SCell.sInt 7, SCell.sText "A"], [SCell.sInt 8, SCell.sText "B"]]⟩
    0 ⟨"id", "INTEGER", false, false⟩ (by rfl)
    1 ⟨"name", "TEXT", true, false⟩ (by rfl) (by rfl) (by decide) (by decide)
    ⟨[SCell.sInt 7, SCell.sText "A"], by decide, by decide⟩).1

/-! ## Sanitizer lemmas and Claim C4 -/

theorem alnumBar_not_space (c : Char) (h : (pyIsAlnum c || c = '_') = true) :
    pyIsSpace c = false := by
  cases hs : pyIsSpace c with
  | false => rfl
  | true =>
      exfalso
      simp only [pyIsSpace, Bool.or_eq_true, decide_eq_true_eq] at hs
      rcases hs with ((((h1 | h2) | h3) | h4) | h5) | h6 <;> subst_vars <;>
        exact absurd h (by decide)

theorem alnumBar_ne_space_char (c : Char) (h : (pyIsAlnum c || c = '_') = true) :
    c ≠ ' ' := by
  intro hc
  subst hc
  exact absurd h (by decide)

theorem cleanedChars_pred (l : List Char) :
    ∀ c ∈ cleanedChars l, (pyIsAlnum c || c = '_') = true := by
  intro c hc
  rcases List.mem_map.mp hc with ⟨a, _, rfl⟩
  by_cases hp : (pyIsAlnum a || a = '_') = true
  · rw [if_pos hp]; exact hp
  · rw [if_neg hp]; decide

theorem digitGuard_pred (l : List Char)
    (h : ∀ c ∈ l, (pyIsAlnum c || c = '_') = true) :
    ∀ c ∈ digitGuard l, (pyIsAlnum c || c = '_') = true := by
  intro c hc
  cases l with
  | nil => simp [digitGuard] at hc
  | cons a t =>
      simp only [digitGuard] at hc
      by_cases hd : pyIsDigit a = true
      · rw [if_pos hd] at hc
        rcases List.mem_append.mp hc with hl | hr
        · fin_cases hl <;> decide
        · exact h c hr
      · rw [if_neg hd] at hc
        exact h c hc

theorem digitGuard_head_not_digit (l : List Char) :
    ∀ c t, digitGuard l = c :: t → pyIsDigit c = false := by
  intro c t h
  cases l with
  | nil => simp [digitGuard] at h
  | cons a r =>
      simp only [digitGuard] at h
      by_cases hd : pyIsDigit a = true
      · rw [if_pos hd] at h
        have h' : 'c' :: ('o' :: ('l' :: ('_' :: (a :: r)))) = c :: t := h
        injection h' with h1 _
        subst h1
        decide
      · rw [if_neg hd] at h
        injection h with h1 _
        subst h1
        simpa using hd

theorem clean_column_name_pred (name : String) :
    ∀ c ∈ (clean_column_name name).data, (pyIsAlnum c || c = '_') = true := by
  unfold clean_column_name
  by_cases he : (digitGuard (cleanedChars name.data)).isEmpty = true
  · rw [if_pos he]
    intro c hc
    fin_cases hc <;> decide
  · rw [if_neg he]
    exact digitGuard_pred _ (cleanedChars_pred name.data)

theorem clean_column_name_head_not_digit (name : String) :
    ∀ c t, (clean_column_name name).data = c :: t → pyIsDigit c = false := by
  intro c t hct
  simp only [clean_column_name] at hct
  by_cases he : (digitGuard (cleanedChars name.data)).isEmpty = true
  · rw [if_pos he] at hct
    have h' : 'C' :: "olumn_A".data = c :: t := hct
    injection h' with h1 _
    subst h1
    decide
  · rw [if_neg he] at hct
    exact digitGuard_head_not_digit _ c t hct

theorem dropWhile_eq_self_of_none (l : List Char)
    (h : ∀ c ∈ l, pyIsSpace c = false) : l.dropWhile pyIsSpace = l := by
  cases l with
  | nil => rfl
  | cons a t =>
      rw [List.dropWhile_cons]
      simp [h a (by simp)]

theorem pyStrip_eq_self_of_none (l : List Char)
    (h : ∀ c ∈ l, pyIsSpace c = false) : pyStrip l = l := by
  unfold pyStrip
  rw [dropWhile_eq_self_of_none l h,
      dropWhile_eq_self_of_none l.reverse (fun c hc => h c (List.mem_reverse.mp hc)),
      List.reverse_reverse]

theorem map_eq_self_of_fix (l : List Char) (f : Char → Char)
    (h : ∀ c ∈ l, f c = c) : l.map f = l := by
  induction l with
  | nil => rfl
  | cons a t ih =>
      rw [List.map_cons, h a (by simp), ih (fun c hc => h c (by simp [hc]))]

theorem cleanedChars_fixed (l : List Char)
    (h : ∀ c ∈ l, (pyIsAlnum c || c = '_') = true) : cleanedChars l = l := by
  unfold cleanedChars
  rw [pyStrip_eq_self_of_none l (fun c hc => alnumBar_not_space c (h c hc))]
  rw [map_eq_self_of_fix l _ (fun c hc => by
    rw [if_neg (alnumBar_ne_space_char c (h c hc))])]
  exact map_eq_self_of_fix l _ (fun c hc => by rw [if_pos (h c hc)])

/-- Claim C4: `clean_column_name` is a total function of the input string
(by construction in this embedding) and idempotent on every string, and it
maps `"123abc"` to `"col_123abc"`, `""` to `"Column_A"`, and `"A B@C"` to
`"A_B_C"`. -/
theorem C4_clean_column_name_total_idempotent :
    (∀ x : String, clean_column_name (clean_column_name x) = clean_column_name x) ∧
    clean_column_name "123abc" = "col_123abc" ∧
    clean_column_name "" = "Column_A" ∧
    clean_column_name "A B@C" = "A_B_C" := by
  refine ⟨?_, rfl, rfl, rfl⟩
  intro x
  rcases hy : (clean_column_name x).data with _ | ⟨c, t⟩
  · exfalso
    unfold clean_column_name at hy
    by_cases he : (digitGuard (cleanedChars x.data)).isEmpty = true
    · rw [if_pos he] at hy
      exact absurd hy (by decide)
    · rw [if_neg he] at hy
      rw [List.isEmpty_iff] at he
      exact he hy
  · have hpred : ∀ a ∈ (clean_column_name x).data, (pyIsAlnum a || a = '_') = true :=
      clean_column_name_pred x
    have hd : pyIsDigit c = false := clean_column_name_head_not_digit x c t hy
    have hfix : cleanedChars (clean_column_name x).data = (clean_column_name x).data :=
      cleanedChars_fixed _ hpred
    generalize hgen : clean_column_name x = y at hy hfix ⊢
    simp only [clean_column_name]
    rw [hfix, hy]
    have hdg : digitGuard (c :: t) = c :: t := by
      have hred : digitGuard (c :: t)
          = if pyIsDigit c = true then 'c' :: 'o' :: 'l' :: '_' :: c :: t else c :: t := rfl
      rw [hred, if_neg (by simp [hd])]
    rw [hdg]
    simp only [List.isEmpty_cons, Bool.false_eq_true, if_false]
    rw [← hy]

/-- Claim C1 (amended): for every non-empty all-numeric column, the
classifier returns `int` exactly when the column's pandas dtype is integer,
that is, when every value is an integer-typed number; any other non-empty
all-numeric column (one holding a float-typed value, whatever its
fractional part) is classified `float`. -/
theorem C1_numeric_classification (cells : List Cell) (hne : cells ≠ [])
    (hnum : cells.all Cell.isNum = true) :
    inferOneType cells = (if cells.all Cell.isInt then "int" else "float") := by
  have hnm : ∀ c ∈ cells, c.isMissing = false := by
    intro c hc
    have := List.all_eq_true.mp hnum c hc
    cases c <;> simp_all [Cell.isNum, Cell.isInt, Cell.isFloat, Cell.isMissing]
  have hnd : ∀ c ∈ cells, c.isDateCell = false := by
    intro c hc
    have := List.all_eq_true.mp hnum c hc
    cases c <;> simp_all [Cell.isNum, Cell.isInt, Cell.isFloat, Cell.isDateCell]
  rcases hcells : cells with _ | ⟨c0, cr⟩
  · exact absurd hcells hne
  rw [← hcells]
  have hmiss_all : cells.all Cell.isMissing = false := by
    rw [List.all_eq_false]
    exact ⟨c0, by rw [hcells]; simp, by simp [hnm c0 (by rw [hcells]; simp)]⟩
  have hany_date : cells.any Cell.isDateCell = false := by
    rw [List.any_eq_false]
    intro c hc
    simp [hnd c hc]
  have hdtype_not_dt :
      (cells.all (fun c => c.isDateCell || c.isMissing) && cells.any Cell.isDateCell) = false := by
    rw [hany_date]; simp
  have hfilter : cells.filter (fun c => !c.isMissing) = cells :=
    List.filter_eq_self.mpr (fun c hc => by simp [hnm c hc])
  have hnonempty : cells.isEmpty = false := by
    rw [hcells]; rfl
  by_cases hint : cells.all Cell.isInt = true
  · have hdt : colDtype cells = .dtInt := by
      unfold colDtype
      rw [if_neg (by simp [hdtype_not_dt]), if_pos (by simp [hnonempty, hint])]
    rw [if_pos hint]
    unfold inferOneType
    rw [if_neg (by simp [hmiss_all]), if_neg (by simp [hdt]), hfilter]
    rw [if_neg (by simp [List.length_eq_zero, hcells]), if_pos (by simp [hdt])]
  · have hnum_or : cells.all (fun c => c.isNum || c.isMissing) = true := by
      rw [List.all_eq_true]
      intro c hc
      simp [List.all_eq_true.mp hnum c hc]
    have hdt : colDtype cells = .dtFloat := by
      unfold colDtype
      rw [if_neg (by simp [hdtype_not_dt]),
          if_neg (by simp [hint]), if_pos hnum_or]
    rw [if_neg hint]
    unfold inferOneType
    rw [if_neg (by simp [hmiss_all]), if_neg (by simp [hdt]), hfilter]
    rw [if_neg (by simp [List.length_eq_zero, hcells]), if_neg (by simp [hdt]),
        if_pos (by simp [hdt])]

/-! ## Primary-key selector lemmas and Claim C3 -/

theorem dedup_length_beq_nodup {α : Type} [DecidableEq α] (l : List α) :
    (l.dedup.length == l.length) = decide l.Nodup := by
  by_cases h : l.Nodup
  · simp [List.dedup_eq_self.mpr h, h]
  · simp only [h, decide_False, beq_eq_false_iff_ne, ne_eq]
    intro hlen
    exact h (List.dedup_eq_self.mp (List.Sublist.eq_of_length (List.dedup_sublist l) hlen))

theorem except_bind_ok {ε α β : Type} (a : α) (f : α → Except ε β) :
    (Except.ok a >>= f) = f a := rfl

theorem colQualifies_eq_spec (cells : List Cell) :
    colQualifies cells =
      (!(cells.filter (fun c => !c.isMissing)).isEmpty &&
        decide (cells.filter (fun c => !c.isMissing)).Nodup) := by
  show (!(cells.filter (fun c => !c.isMissing)).isEmpty &&
      ((cells.filter (fun c => !c.isMissing)).dedup.length ==
        (cells.filter (fun c => !c.isMissing)).length)) = _
  rw [dedup_length_beq_nodup]

theorem find_label_of_nodup (cols : List (String × List Cell)) (name : String)
    (hnd : (cols.map Prod.fst).Nodup) (hmem : name ∈ cols.map Prod.fst) :
    ∃ cs, cols.filter (fun c => c.1 == name) = [(name, cs)] ∧
      cols.find? (fun c => c.1 == name) = some (name, cs) := by
  induction cols with
  | nil => simp at hmem
  | cons a r ih =>
      rcases a with ⟨la, csa⟩
      by_cases ha : la = name
      · subst ha
        have hnot : ∀ c ∈ r, (c.1 == la) = false := by
          intro c hc
          have : c.1 ∈ r.map Prod.fst := List.mem_map_of_mem _ hc
          have hne : c.1 ≠ la := by
            intro he
            exact (List.nodup_cons.mp hnd).1 (he ▸ this)
          simp [hne]
        refine ⟨csa, ?_, ?_⟩
        · rw [List.filter_cons_of_pos (by simp)]
          rw [List.filter_eq_nil_iff.mpr (by intro c hc; simp [hnot c hc])]
        · rw [List.find?_cons_of_pos _ (by simp)]
      · have hmem' : name ∈ r.map Prod.fst := by
          rcases List.mem_cons.mp hmem with he | hr
          · exact absurd he.symm ha
          · exact hr
        rcases ih (List.nodup_cons.mp hnd).2 hmem' with ⟨cs, hf, hfi⟩
        refine ⟨cs, ?_, ?_⟩
        · rw [List.filter_cons_of_neg (by simp [ha]), hf]
        · rw [List.find?_cons_of_neg _ (by simp [ha]), hfi]

theorem series_ok_of_nodup (df : DataFrame) (name : String)
    (hnd : df.labels.Nodup) (hmem : name ∈ df.labels) :
    df.series name = .ok (df.cellsOf name) := by
  rcases find_label_of_nodup df.cols name hnd hmem with ⟨cs, hf, hfi⟩
  unfold DataFrame.series DataFrame.colsNamed DataFrame.cellsOf
  rw [hf, hfi]
  rfl

theorem pkScan_eq_find (df : DataFrame) (first : String) (l : List String)
    (hnd : df.labels.Nodup) (hsub : ∀ x ∈ l, x ∈ df.labels)
    (hfq : colQualifies (df.cellsOf first) = false) :
    pkScan df first l =
      .ok (match l.find? (fun x => colQualifies (df.cellsOf x)) with
        | some x => x
        | none => "id") := by
  induction l with
  | nil => rfl
  | cons a r ih =>
      by_cases ha : a = first
      · subst ha
        have h1 : pkScan df a (a :: r) = pkScan df a r := by
          simp [pkScan]
        have h2 : (a :: r).find? (fun x => colQualifies (df.cellsOf x))
            = r.find? (fun x => colQualifies (df.cellsOf x)) :=
          List.find?_cons_of_neg _ (by simp [hfq])
        rw [h1, h2]
        exact ih (fun x hx => hsub x (by simp [hx]))
      · have hser := series_ok_of_nodup df a hnd (hsub a (by simp))
        by_cases hq : colQualifies (df.cellsOf a) = true
        · have h2 : (a :: r).find? (fun x => colQualifies (df.cellsOf x)) = some a :=
            List.find?_cons_of_pos _ hq
          rw [h2]
          simp only [pkScan]
          rw [if_neg (by simp [ha]), hser, except_bind_ok, if_pos hq]
          rfl
        · have hqf : colQualifies (df.cellsOf a) = false := by
            simpa using hq
          have h2 : (a :: r).find? (fun x => colQualifies (df.cellsOf x))
              = r.find? (fun x => colQualifies (df.cellsOf x)) :=
            List.find?_cons_of_neg _ (by simp [hqf])
          rw [h2, ← ih (fun x hx => hsub x (by simp [hx]))]
          simp only [pkScan]
          rw [if_neg (by simp [ha]), hser, except_bind_ok, if_neg (by simp [hqf])]

/-- Claim C3: for every dataset with (mapping-keyed, hence pairwise-distinct)
column labels, `detect_primary_key` over the dataset's column list returns
the first column in declaration order whose non-missing values are pairwise
distinct and number at least one; when no column qualifies — in particular
when the column list is empty — it returns the synthetic key `"id"`. -/
theorem C3_detect_primary_key_first_qualifying (df : DataFrame)
    (hnd : df.labels.Nodup) :
    detect_primary_key df df.labels =
      .ok (match df.labels.find? (fun l =>
          !((df.cellsOf l).filter (fun c => !c.isMissing)).isEmpty &&
          decide ((df.cellsOf l).filter (fun c => !c.isMissing)).Nodup) with
        | some l => l
        | none => "id") := by
  have hfun : (fun l => !((df.cellsOf l).filter (fun c => !c.isMissing)).isEmpty &&
      decide ((df.cellsOf l).filter (fun c => !c.isMissing)).Nodup)
      = fun l => colQualifies (df.cellsOf l) := by
    funext l
    rw [colQualifies_eq_spec]
  rw [hfun]
  rcases hlab : df.labels with _ | ⟨first, rest⟩
  · simp [detect_primary_key]
  · have hser := series_ok_of_nodup df first hnd (by rw [hlab]; simp)
    by_cases hq : colQualifies (df.cellsOf first) = true
    · have h2 : (first :: rest).find? (fun x => colQualifies (df.cellsOf x)) = some first :=
        List.find?_cons_of_pos _ hq
      rw [h2]
      simp only [detect_primary_key]
      rw [hser, except_bind_ok, if_pos hq]
      rfl
    · have hqf : colQualifies (df.cellsOf first) = false := by simpa using hq
      have hscan := pkScan_eq_find df first (first :: rest) hnd
        (by intro x hx; rw [hlab]; exact hx) hqf
      simp only [detect_primary_key]
      rw [hser, except_bind_ok, if_neg (by simp [hqf]), hscan]

theorem C3_detect_primary_key_first_qualifying_witness :
    detect_primary_key
        (DataFrame.mk [("category", [Cell.strV "A", Cell.strV "A", Cell.strV "B"]),
          ("value", [Cell.intV 10, Cell.intV 20, Cell.intV 30])])
        ["category", "value"] = .ok "value" := by
  have h := C3_detect_primary_key_first_qualifying
    (DataFrame.mk [("category", [Cell.strV "A", Cell.strV "A", Cell.strV "B"]),
      ("value", [Cell.intV 10, Cell.intV 20, Cell.intV 30])]) (by decide)
  simpa using h

theorem C1_numeric_classification_witness :
    ([Cell.intV 2, Cell.intV 3] ≠ ([] : List Cell)) ∧
    inferOneType [Cell.intV 2, Cell.intV 3] =
      (if ([Cell.intV 2, Cell.intV 3].all Cell.isInt) then "int" else "float") :=
  ⟨by decide, C1_numeric_classification [Cell.intV 2, Cell.intV 3] (by decide) (by decide)⟩

/-! ## Schema-inference lemmas and Claim C5 (amended) -/

theorem map_fst_zipWith_pair {β : Type} (ns : List String) (cs : List (String × β))
    (h : ns.length = cs.length) :
    (List.zipWith (fun n c => (n, c.2)) ns cs).map Prod.fst = ns := by
  induction ns generalizing cs with
  | nil => simp
  | cons a r ih =>
      cases cs with
      | nil => simp at h
      | cons b t => simp [ih t (by simpa using h)]

theorem renameCols_labels (df : DataFrame) (names : List String)
    (h : names.length = df.cols.length) : (df.renameCols names).labels = names := by
  unfold DataFrame.renameCols DataFrame.labels
  exact map_fst_zipWith_pair names df.cols h

theorem headerFixed_length (df : DataFrame) :
    (headerFixed df).cols.length = df.cols.length := by
  rcases hl : df.labels with _ | ⟨l, r⟩
  · simp only [headerFixed, hl]
  · simp only [headerFixed, hl]
    by_cases hu : "Unnamed".isPrefixOf l
    · simp [hu, DataFrame.renameCols, autoNames]
    · simp [hu]

theorem schemaColumns_length (df : DataFrame) :
    (schemaColumns df).length = (headerFixed df).cols.length := by
  simp [schemaColumns, DataFrame.labels]

theorem sanitizedFrame_labels (df : DataFrame) :
    (sanitizedFrame df).labels = schemaColumns df :=
  renameCols_labels (headerFixed df) (schemaColumns df) (schemaColumns_length df)

theorem infer_fold_ok (df : DataFrame) (ls : List String) (acc : List (String × String))
    (h : ∀ x ∈ ls, df.series x = .ok (df.cellsOf x)) :
    ls.foldlM (fun acc l => do
        let cells ← df.series l
        pure (acc ++ [(l, inferOneType cells)])) acc
      = .ok (acc ++ ls.map (fun l => (l, inferOneType (df.cellsOf l)))) := by
  induction ls generalizing acc with
  | nil =>
      simp only [List.foldlM_nil, List.map_nil, List.append_nil]
      rfl
  | cons a r ih =>
      rw [List.foldlM_cons, h a (by simp), except_bind_ok]
      show r.foldlM _ (acc ++ [(a, inferOneType (df.cellsOf a))]) = _
      rw [ih (acc ++ [(a, inferOneType (df.cellsOf a))]) (fun x hx => h x (by simp [hx]))]
      simp

theorem infer_column_types_ok (df : DataFrame) (hnd : df.labels.Nodup) :
    infer_column_types df =
      .ok (df.labels.map (fun l => (l, inferOneType (df.cellsOf l)))) := by
  have h := infer_fold_ok df df.labels [] (fun x hx => series_ok_of_nodup df x hnd hx)
  simpa [infer_column_types] using h

theorem detect_primary_key_ok (df : DataFrame) (hnd : df.labels.Nodup) :
    ∃ pk, detect_primary_key df df.labels = .ok pk ∧
      (pk = "id" ∨ (pk ∈ df.labels ∧ colQualifies (df.cellsOf pk) = true)) := by
  rcases hlab : df.labels with _ | ⟨first, rest⟩
  · exact ⟨"id", by simp [detect_primary_key], Or.inl rfl⟩
  · have hser := series_ok_of_nodup df first hnd (by rw [hlab]; simp)
    by_cases hq : colQualifies (df.cellsOf first) = true
    · refine ⟨first, ?_, Or.inr ⟨by simp, hq⟩⟩
      simp only [detect_primary_key]
      rw [hser, except_bind_ok, if_pos hq]
      rfl
    · have hqf : colQualifies (df.cellsOf first) = false := by simpa using hq
      have hscan := pkScan_eq_find df first (first :: rest) hnd
        (by intro x hx; rw [hlab]; exact hx) hqf
      cases hfind : (first :: rest).find? (fun x => colQualifies (df.cellsOf x)) with
      | none =>
          refine ⟨"id", ?_, Or.inl rfl⟩
          rw [hfind] at hscan
          simp only [detect_primary_key]
          rw [hser, except_bind_ok, if_neg (by simp [hqf]), hscan]
      | some x =>
          refine ⟨x, ?_,
            Or.inr ⟨List.mem_of_find?_eq_some hfind, by simpa using List.find?_some hfind⟩⟩
          rw [hfind] at hscan
          simp only [detect_primary_key]
          rw [hser, except_bind_ok, if_neg (by simp [hqf]), hscan]

theorem detect_schema_ok_shape (df : DataFrame)
    (hnd : (schemaColumns df).Nodup) (hr : df.nRows ≠ 0) (hc : df.cols ≠ []) :
    ∃ pk, detect_schema df =
      .ok ⟨schemaColumns df,
        (schemaColumns df).map (fun l => (l, inferOneType ((sanitizedFrame df).cellsOf l))),
        pk⟩ ∧
      (pk = "id" ∨ (pk ∈ schemaColumns df ∧
        colQualifies ((sanitizedFrame df).cellsOf pk) = true)) := by
  have hemp : df.isEmptyDf = false := by
    simp [DataFrame.isEmptyDf, List.isEmpty_iff, hr, hc]
  have hlen : (df.cols.length == 0) = false := by
    simp [List.length_eq_zero, hc]
  have hlab2 : (sanitizedFrame df).labels = schemaColumns df := sanitizedFrame_labels df
  have hnd2 : (sanitizedFrame df).labels.Nodup := by rw [hlab2]; exact hnd
  have hinf := infer_column_types_ok (sanitizedFrame df) hnd2
  rw [hlab2] at hinf
  obtain ⟨pk, hpk, hmem⟩ := detect_primary_key_ok (sanitizedFrame df) hnd2
  rw [hlab2] at hpk hmem
  refine ⟨pk, ?_, hmem⟩
  simp only [detect_schema]
  rw [if_neg (by simp [hemp]), if_neg (by simp [hlen]), hinf, hpk]

/-- Claim C5 (amended): for every loaded dataset whose sanitized column
names are pairwise distinct, `detect_schema` fails exactly when the dataset
has zero rows or zero columns; otherwise it returns a descriptor in which
every column name is a key of the types mapping and the primary key is
`"id"` or a member of the columns.  (Without the distinctness proviso the
claim fails: duplicated sanitized labels make the pandas lookups raise, so
the inference errors even on nonempty data.) -/
theorem C5_detect_schema_error_iff (df : DataFrame)
    (hnd : (schemaColumns df).Nodup) :
    (detect_schema df = .error () ↔ (df.nRows = 0 ∨ df.cols = [])) ∧
    (∀ sch, detect_schema df = .ok sch →
      (∀ c ∈ sch.columns, c ∈ sch.types.map Prod.fst) ∧
      (sch.primary_key = "id" ∨ sch.primary_key ∈ sch.columns)) := by
  by_cases hdim : df.nRows = 0 ∨ df.cols = []
  · have hemp : df.isEmptyDf = true := by
      rcases hdim with h | h
      · simp [DataFrame.isEmptyDf, h]
      · simp [DataFrame.isEmptyDf, h]
    have herr : detect_schema df = .error () := by
      simp [detect_schema, hemp]
    refine ⟨⟨fun _ => hdim, fun _ => herr⟩, ?_⟩
    intro sch h
    rw [herr] at h
    simp at h
  · push_neg at hdim
    obtain ⟨pk, hds, hmem⟩ := detect_schema_ok_shape df hnd hdim.1 hdim.2
    constructor
    · constructor
      · intro h
        rw [hds] at h
        simp at h
      · intro h
        exact absurd h (by simpa using hdim)
    · intro sch h
      rw [hds] at h
      have hsch := Except.ok.inj h
      subst hsch
      refine ⟨?_, hmem.imp id And.left⟩
      intro c hcm
      simp only [List.map_map]
      simpa using hcm

theorem C5_detect_schema_error_iff_witness :
    (detect_schema (DataFrame.mk [("x", [Cell.intV 1, Cell.intV 1])]) = .error () ↔
      ((DataFrame.mk [("x", [Cell.intV 1, Cell.intV 1])]).nRows = 0 ∨
        (DataFrame.mk [("x", [Cell.intV 1, Cell.intV 1])]).cols = [])) ∧
    (∀ sch, detect_schema (DataFrame.mk [("x", [Cell.intV 1, Cell.intV 1])]) = .ok sch →
      (∀ c ∈ sch.columns, c ∈ sch.types.map Prod.fst) ∧
      (sch.primary_key = "id" ∨ sch.primary_key ∈ sch.columns)) :=
  C5_detect_schema_error_iff (DataFrame.mk [("x", [Cell.intV 1, Cell.intV 1])]) (by decide)


/-! ## Round-trip lemmas and Claim C7 (amended) -/

theorem mem_enumFrom_snd {α : Type} (l : List α) (k : Nat) (p : Nat × α)
    (h : p ∈ List.enumFrom k l) : p.2 ∈ l := by
  induction l generalizing k with
  | nil => simp [List.enumFrom] at h
  | cons a t ih =>
      simp only [List.enumFrom] at h
      rcases List.mem_cons.mp h with he | h'
      · subst he; simp
      · exact List.mem_cons_of_mem _ (ih (k + 1) h')

theorem findCol_enumFrom_isSome (cols : List Column) (k : Nat) (name : String)
    (h : name ∈ cols.map Column.name) :
    ((List.enumFrom k cols).find? (fun ic => ic.2.name == name)).isSome = true := by
  induction cols generalizing k with
  | nil => simp at h
  | cons c t ih =>
      simp only [List.enumFrom]
      by_cases hc : c.name = name
      · rw [List.find?_cons_of_pos _ (by simp [hc])]
        rfl
      · rw [List.find?_cons_of_neg _ (by simp [hc])]
        rcases List.mem_cons.mp h with he | hm
        · exact absurd he.symm hc
        · exact ih (k + 1) hm

theorem findCol_isSome_of_mem (t : Table) (name : String)
    (h : name ∈ t.cols.map Column.name) :
    (t.findCol name).isSome = true := by
  unfold Table.findCol
  exact findCol_enumFrom_isSome t.cols 0 name h

theorem bindLookup_cons_self (n0 : String) (v0 : SCell) (rest : List (String × SCell)) :
    Table.bindLookup ((n0, v0) :: rest) n0 = some v0 := by
  unfold Table.bindLookup
  rw [List.find?_cons_of_pos _ (by simp)]
  rfl

theorem bindLookup_cons_ne (n0 : String) (v0 : SCell) (rest : List (String × SCell))
    (name : String) (h : n0 ≠ name) :
    Table.bindLookup ((n0, v0) :: rest) name = Table.bindLookup rest name := by
  unfold Table.bindLookup
  rw [List.find?_cons_of_neg _ (by simp [h])]

theorem zip_lookup_spec (cols : List Column) (r : List SCell)
    (hnd : (cols.map Column.name).Nodup) (hlen : r.length = cols.length) :
    ∀ c ∈ cols, ∃ v, Table.bindLookup ((cols.map Column.name).zip r) c.name = some v ∧
      (c, v) ∈ cols.zip r := by
  induction cols generalizing r with
  | nil => simp
  | cons c0 rest ih =>
      cases r with
      | nil => simp at hlen
      | cons v0 r' =>
          intro c hc
          rcases List.mem_cons.mp hc with rfl | hm
          · refine ⟨v0, ?_, by simp⟩
            simp only [List.map_cons, List.zip_cons_cons]
            exact bindLookup_cons_self c.name v0 _
          · have hne : c0.name ≠ c.name := by
              intro he
              exact (List.nodup_cons.mp hnd).1
                (he ▸ List.mem_map_of_mem Column.name hm)
            obtain ⟨v, hv, hmem⟩ := ih r' (List.nodup_cons.mp hnd).2
              (by simpa using hlen) c hm
            refine ⟨v, ?_, List.mem_cons_of_mem _ hmem⟩
            simp only [List.map_cons, List.zip_cons_cons]
            rw [bindLookup_cons_ne c0.name v0 _ c.name hne]
            exact hv

theorem map_bindLookup_zip (cols : List Column) (r : List SCell)
    (hnd : (cols.map Column.name).Nodup) (hlen : r.length = cols.length) :
    cols.map (fun c => applyAffinity c.affin
      ((Table.bindLookup ((cols.map Column.name).zip r) c.name).getD .sNull)) =
    List.zipWith (fun c v => applyAffinity c.affin v) cols r := by
  induction cols generalizing r with
  | nil => simp
  | cons c0 rest ih =>
      cases r with
      | nil => simp at hlen
      | cons v0 r' =>
          simp only [List.map_cons, List.zipWith_cons_cons, List.zip_cons_cons]
          refine List.cons_eq_cons.mpr ⟨?_, ?_⟩
          · rw [bindLookup_cons_self c0.name v0 _]
            rfl
          · rw [← ih r' (List.nodup_cons.mp hnd).2 (by simpa using hlen)]
            refine List.map_congr_left ?_
            intro c hm
            have hne : c0.name ≠ c.name := by
              intro he
              exact (List.nodup_cons.mp hnd).1
                (he ▸ List.mem_map_of_mem Column.name hm)
            rw [bindLookup_cons_ne c0.name v0 _ c.name hne]

theorem enumFrom_map_snd_fun {α β : Type} (l : List α) (k : Nat) (g : α → β) :
    (List.enumFrom k l).map (fun ic => g ic.2) = l.map g := by
  induction l generalizing k with
  | nil => rfl
  | cons a t ih => simp only [List.enumFrom, List.map_cons, ih]

theorem mapM_storedCell_ok (t : Table) (binding : List (String × SCell))
    (L : List (Nat × Column))
    (h : ∀ ic ∈ L, ∃ v, Table.bindLookup binding ic.2.name = some v ∧
      (Table.rowidAlias ic.2 = true → ∃ n, applyAffinity ic.2.affin v = .sInt n)) :
    L.mapM (fun ic => t.storedCell binding ic.1 ic.2) =
      .ok (L.map (fun ic => applyAffinity ic.2.affin
        ((Table.bindLookup binding ic.2.name).getD .sNull))) := by
  induction L with
  | nil => rfl
  | cons ic rest ih =>
      obtain ⟨v, hv, halias⟩ := h ic (by simp)
      have hcell : t.storedCell binding ic.1 ic.2 = .ok (applyAffinity ic.2.affin v) := by
        unfold Table.storedCell
        simp only [hv]
        by_cases ha : Table.rowidAlias ic.2 = true
        · rw [if_pos ha]
          obtain ⟨n, hn⟩ := halias ha
          rw [hn]
        · rw [if_neg ha]
      rw [List.mapM_cons, hcell, except_bind_ok,
        ih (fun x hx => h x (by simp [hx])), except_bind_ok]
      simp only [List.map_cons, hv]
      rfl

theorem insertRow_full (cols : List Column) (prior : List (List SCell)) (r : List SCell)
    (hnd : (cols.map Column.name).Nodup) (hlen : r.length = cols.length)
    (halias : ∀ p ∈ cols.zip r, Table.rowidAlias p.1 = true →
      ∃ n, applyAffinity p.1.affin p.2 = .sInt n)
    (hpk : ∀ pi ∈ cols.enum.find? (fun ic => ic.2.isPk),
      (((List.zipWith (fun c v => applyAffinity c.affin v) cols r).getD pi.1 .sNull
          != .sNull) &&
        prior.any (fun q => q.getD pi.1 .sNull ==
          (List.zipWith (fun c v => applyAffinity c.affin v) cols r).getD pi.1 .sNull))
        = false) :
    (Table.mk cols prior).insertRow ((cols.map Column.name).zip r)
      = .ok ⟨cols, prior ++ [List.zipWith (fun c v => applyAffinity c.affin v) cols r]⟩ := by
  have hnames : ((cols.map Column.name).zip r).find?
      (fun b => ((Table.mk cols prior).findCol b.1).isNone) = none := by
    rw [List.find?_eq_none]
    intro b hb
    have hs := findCol_isSome_of_mem (Table.mk cols prior) b.1 (List.of_mem_zip hb).1
    intro hnone
    rw [Option.isNone_iff_eq_none] at hnone
    rw [hnone] at hs
    simp at hs
  have hmap : (Table.mk cols prior).cols.enum.mapM
      (fun ic => (Table.mk cols prior).storedCell ((cols.map Column.name).zip r) ic.1 ic.2) =
      .ok (cols.enum.map (fun ic => applyAffinity ic.2.affin
        ((Table.bindLookup ((cols.map Column.name).zip r) ic.2.name).getD .sNull))) := by
    refine mapM_storedCell_ok _ _ _ ?_
    intro ic hic
    obtain ⟨v, hv, hz⟩ := zip_lookup_spec cols r hnd hlen ic.2 (mem_enumFrom_snd cols 0 ic hic)
    exact ⟨v, hv, fun ha => halias (ic.2, v) hz ha⟩
  have hrow : cols.enum.map (fun ic => applyAffinity ic.2.affin
      ((Table.bindLookup ((cols.map Column.name).zip r) ic.2.name).getD .sNull)) =
      List.zipWith (fun c v => applyAffinity c.affin v) cols r := by
    have h1 := enumFrom_map_snd_fun cols 0
      (fun c => applyAffinity c.affin
        ((Table.bindLookup ((cols.map Column.name).zip r) c.name).getD .sNull))
    exact h1.trans (map_bindLookup_zip cols r hnd hlen)
  unfold Table.insertRow
  simp only [hnames, hmap, except_bind_ok, hrow]
  cases hfind : cols.enum.find? (fun ic => ic.2.isPk) with
  | none => simp only [hfind]
  | some pi =>
      simp only [hfind]
      rcases pi with ⟨i, c⟩
      rw [if_neg (by simpa using hpk (i, c) (by simp [hfind]))]

theorem execInsertMany_ok (cols : List Column) (done rows : List (List SCell))
    (hnd : (cols.map Column.name).Nodup)
    (hlen : ∀ r ∈ rows, r.length = cols.length)
    (halias : ∀ r ∈ rows, ∀ p ∈ cols.zip r, Table.rowidAlias p.1 = true →
      ∃ n, applyAffinity p.1.affin p.2 = .sInt n)
    (hpw : ∀ pi ∈ cols.enum.find? (fun ic => ic.2.isPk),
      List.Pairwise (fun a b : SCell => b = .sNull ∨ a ≠ b)
        ((done ++ rows.map
            (fun r => List.zipWith (fun c v => applyAffinity c.affin v) cols r)).map
          (fun q => q.getD pi.1 .sNull))) :
    execInsertMany ⟨cols, done⟩ (cols.map Column.name) rows
      = .ok ⟨cols, done ++ rows.map
          (fun r => List.zipWith (fun c v => applyAffinity c.affin v) cols r)⟩ := by
  induction rows generalizing done with
  | nil => simp [execInsertMany]
  | cons r rest ih =>
      have hpkcond : ∀ pi ∈ cols.enum.find? (fun ic => ic.2.isPk),
          (((List.zipWith (fun c v => applyAffinity c.affin v) cols r).getD pi.1 .sNull
              != .sNull) &&
            done.any (fun q => q.getD pi.1 .sNull ==
              (List.zipWith (fun c v => applyAffinity c.affin v) cols r).getD pi.1 .sNull))
            = false := by
        intro pi hpi
        have hpw' := hpw pi hpi
        by_cases hvnull :
            (List.zipWith (fun c v => applyAffinity c.affin v) cols r).getD pi.1 .sNull
              = .sNull
        · rw [hvnull]
          rfl
        · have hsplit := (List.pairwise_append.mp (by
            simpa only [List.map_append] using hpw')).2.2
          have hany : done.any (fun q => q.getD pi.1 .sNull ==
              (List.zipWith (fun c v => applyAffinity c.affin v) cols r).getD pi.1 .sNull)
              = false := by
            rw [List.any_eq_false]
            intro q hq
            have hmem2 : (List.zipWith (fun c v => applyAffinity c.affin v) cols r).getD
                pi.1 .sNull ∈
                (((r :: rest).map
                  (fun r => List.zipWith (fun c v => applyAffinity c.affin v) cols r)).map
                  (fun q => q.getD pi.1 .sNull)) := by
              simp
            rcases hsplit (q.getD pi.1 .sNull) (List.mem_map_of_mem _ hq) _ hmem2
              with h1 | h2
            · exact absurd h1 hvnull
            · exact fun hbeq => h2 (beq_iff_eq.mp hbeq)
          rw [hany, Bool.and_false]
      have hins := insertRow_full cols done r hnd (hlen r (by simp))
        (halias r (by simp)) hpkcond
      have hstep : execInsertMany ⟨cols, done⟩ (cols.map Column.name) (r :: rest)
          = execInsertMany
              ⟨cols, done ++ [List.zipWith (fun c v => applyAffinity c.affin v) cols r]⟩
              (cols.map Column.name) rest := by
        show ((Table.mk cols done).insertRow ((cols.map Column.name).zip r) >>= fun t' =>
            execInsertMany t' (cols.map Column.name) rest) = _
        rw [hins, except_bind_ok]
      rw [hstep,
        ih (done ++ [List.zipWith (fun c v => applyAffinity c.affin v) cols r])
          (fun x hx => hlen x (by simp [hx]))
          (fun x hx => halias x (by simp [hx]))
          (by
            intro pi hpi
            have := hpw pi hpi
            simpa [List.map_append, List.append_assoc] using this)]
      simp

theorem band_elim {a b : Bool} (h : (a && b) = true) : a = true ∧ b = true := by
  simp at h
  exact h

theorem colDtype_int_elim (cells : List Cell) (h : colDtype cells = .dtInt) :
    cells.isEmpty = false ∧ cells.all Cell.isInt = true := by
  unfold colDtype at h
  by_cases h1 : (cells.all (fun c => c.isDateCell || c.isMissing) &&
      cells.any Cell.isDateCell) = true
  · rw [if_pos h1] at h
    exact absurd h (by decide)
  · rw [if_neg h1] at h
    by_cases h2 : (!cells.isEmpty && cells.all Cell.isInt) = true
    · obtain ⟨he, hi⟩ := band_elim h2
      exact ⟨by simpa using he, hi⟩
    · rw [if_neg h2] at h
      by_cases h3 : cells.all (fun c => c.isNum || c.isMissing) = true
      · rw [if_pos h3] at h
        exact absurd h (by decide)
      · rw [if_neg h3] at h
        exact absurd h (by decide)

theorem colDtype_datetime_elim (cells : List Cell) (h : colDtype cells = .dtDatetime) :
    cells.all (fun c => c.isDateCell || c.isMissing) = true ∧
    cells.any Cell.isDateCell = true := by
  unfold colDtype at h
  by_cases h1 : (cells.all (fun c => c.isDateCell || c.isMissing) &&
      cells.any Cell.isDateCell) = true
  · exact band_elim h1
  · rw [if_neg h1] at h
    by_cases h2 : (!cells.isEmpty && cells.all Cell.isInt) = true
    · rw [if_pos h2] at h
      exact absurd h (by decide)
    · rw [if_neg h2] at h
      by_cases h3 : cells.all (fun c => c.isNum || c.isMissing) = true
      · rw [if_pos h3] at h
        exact absurd h (by decide)
      · rw [if_neg h3] at h
        exact absurd h (by decide)

theorem all_missing_false_of_nonmissing_mem (cells : List Cell) (c : Cell)
    (hc : c ∈ cells) (hm : c.isMissing = false) :
    cells.all Cell.isMissing = false := by
  rw [List.all_eq_false]
  exact ⟨c, hc, by simp [hm]⟩

theorem inferOneType_of_dtInt (cells : List Cell) (h : colDtype cells = .dtInt) :
    inferOneType cells = "int" := by
  obtain ⟨hne, hint⟩ := colDtype_int_elim cells h
  rcases hcl : cells with _ | ⟨c0, cr⟩
  · rw [hcl] at hne; simp at hne
  rw [← hcl]
  have hc0 : c0 ∈ cells := by rw [hcl]; simp
  have hc0i : c0.isInt = true := List.all_eq_true.mp hint c0 hc0
  have hc0m : c0.isMissing = false := by
    cases c0 <;> simp_all [Cell.isInt, Cell.isMissing]
  have hmiss := all_missing_false_of_nonmissing_mem cells c0 hc0 hc0m
  have hfilter : cells.filter (fun c => !c.isMissing) = cells := by
    refine List.filter_eq_self.mpr (fun x hx => ?_)
    have hxi := List.all_eq_true.mp hint x hx
    cases x <;> simp_all [Cell.isInt, Cell.isMissing]
  unfold inferOneType
  rw [if_neg (by simp [hmiss]), if_neg (by simp [h]), hfilter,
    if_neg (by simp [List.length_eq_zero, hcl]), if_pos (by simp [h])]

theorem inferOneType_of_dtFloat_nonmissing (cells : List Cell)
    (h : colDtype cells = .dtFloat) (hmiss : cells.all Cell.isMissing = false) :
    inferOneType cells = "float" := by
  have hnonnil : cells ≠ [] := by
    intro he
    rw [he] at hmiss
    simp at hmiss
  have hfl : (cells.filter (fun c => !c.isMissing)).length ≠ 0 := by
    intro hlen
    rw [List.length_eq_zero, List.filter_eq_nil_iff] at hlen
    rw [List.all_eq_false] at hmiss
    obtain ⟨x, hx, hxm⟩ := hmiss
    exact (hlen x hx) (by simpa using hxm)
  unfold inferOneType
  rw [if_neg (by simp [hmiss]), if_neg (by simp [h]),
    if_neg (by simpa using hfl), if_neg (by simp [h]), if_pos (by simp [h])]

theorem inferOneType_of_dtDatetime (cells : List Cell)
    (h : colDtype cells = .dtDatetime) : inferOneType cells = "date" := by
  obtain ⟨hall, hany⟩ := colDtype_datetime_elim cells h
  obtain ⟨d, hd, hdd⟩ := List.any_eq_true.mp hany
  have hdm : d.isMissing = false := by
    cases d <;> simp_all [Cell.isDateCell, Cell.isMissing]
  have hmiss := all_missing_false_of_nonmissing_mem cells d hd hdm
  unfold inferOneType
  rw [if_neg (by simp [hmiss]), if_pos (by simp [h])]

theorem inferOneType_of_dtObject_text (cells : List Cell)
    (h : colDtype cells = .dtObject) :
    _map_type_to_sqlite (inferOneType cells) = "TEXT" := by
  have hmiss : cells.all Cell.isMissing = false := by
    cases hm : cells.all Cell.isMissing with
    | false => rfl
    | true =>
        exfalso
        have hnum : cells.all (fun c => c.isNum || c.isMissing) = true := by
          rw [List.all_eq_true]
          intro x hx
          have := List.all_eq_true.mp hm x hx
          simp [this]
        unfold colDtype at h
        by_cases h1 : (cells.all (fun c => c.isDateCell || c.isMissing) &&
            cells.any Cell.isDateCell) = true
        · rw [if_pos h1] at h
          exact absurd h (by decide)
        · rw [if_neg h1] at h
          by_cases h2 : (!cells.isEmpty && cells.all Cell.isInt) = true
          · rw [if_pos h2] at h
            exact absurd h (by decide)
          · rw [if_neg h2] at h
            rw [if_pos hnum] at h
            exact absurd h (by decide)
  unfold inferOneType
  rw [if_neg (by simp [hmiss]), if_neg (by simp [h])]
  by_cases hl : ((cells.filter (fun c => !c.isMissing)).length == 0) = true
  · rw [if_pos hl]
    rfl
  · rw [if_neg hl, if_neg (by simp [h]), if_neg (by simp [h])]
    by_cases hdc : is_date_column (cells.filter (fun c => !c.isMissing)) = true
    · rw [if_pos hdc]
      rfl
    · rw [if_neg hdc]
      rfl

theorem readCell_bind_canon (c : Cell) : readCell (bindCell (canonCell c)) = canonCell c := by
  cases c <;> rfl

theorem cell_store_roundtrip (cells : List Cell) (hsafe : storeSafeCells cells = true) :
    ∀ c ∈ cells,
      applyAffinity (_map_type_to_sqlite (inferOneType cells)) (bindCell c)
        = bindCell (canonCell c) := by
  intro c hc
  by_cases hmc : c.isMissing = true
  · have hcm : c = .missing := by cases c <;> simp_all [Cell.isMissing]
    subst hcm
    rfl
  · obtain ⟨hsf, hso⟩ := band_elim hsafe
    cases hdt : colDtype cells with
    | dtInt =>
        have hci : c.isInt = true := List.all_eq_true.mp (colDtype_int_elim cells hdt).2 c hc
        obtain ⟨n, rfl⟩ : ∃ n, c = .intV n := by
          cases c <;> simp_all [Cell.isInt]
        rw [inferOneType_of_dtInt cells hdt]
        rfl
    | dtFloat =>
        have hall : cells.all (fun x => x.isFloat || x.isMissing) = true := by
          rw [hdt] at hsf
          simpa using hsf
        have hcf : c.isFloat = true := by
          have := List.all_eq_true.mp hall c hc
          simpa [hmc] using this
        obtain ⟨n, f, rfl⟩ : ∃ n f, c = .floatV n f := by
          cases c <;> simp_all [Cell.isFloat]
        rw [inferOneType_of_dtFloat_nonmissing cells hdt
          (all_missing_false_of_nonmissing_mem cells _ hc (by simp [Cell.isMissing]))]
        rfl
    | dtDatetime =>
        have hcd : c.isDateCell = true := by
          have := List.all_eq_true.mp (colDtype_datetime_elim cells hdt).1 c hc
          simpa [hmc] using this
        obtain ⟨iso, rfl⟩ : ∃ iso, c = .dateV iso := by
          cases c <;> simp_all [Cell.isDateCell]
        rw [inferOneType_of_dtDatetime cells hdt]
        rfl
    | dtObject =>
        have hall : cells.all (fun x => x.isStr || x.isMissing) = true := by
          rw [hdt] at hso
          simpa using hso
        have hcs : c.isStr = true := by
          have := List.all_eq_true.mp hall c hc
          simpa [hmc] using this
        obtain ⟨str0, rfl⟩ : ∃ str0, c = .strV str0 := by
          cases c <;> simp_all [Cell.isStr]
        rw [inferOneType_of_dtObject_text cells hdt]
        rfl

theorem bind_canon_ne_null (c : Cell) (h : c.isMissing = false) :
    bindCell (canonCell c) ≠ .sNull := by
  cases c <;> simp_all [Cell.isMissing, canonCell, bindCell]

theorem bind_canon_inj_of_safe (cells : List Cell) (hsafe : storeSafeCells cells = true)
    (a : Cell) (ha : a ∈ cells) (b : Cell) (hb : b ∈ cells)
    (ham : a.isMissing = false) (hbm : b.isMissing = false) (hne : a ≠ b) :
    bindCell (canonCell a) ≠ bindCell (canonCell b) := by
  obtain ⟨hsf, hso⟩ := band_elim hsafe
  cases hdt : colDtype cells with
  | dtInt =>
      have hai : a.isInt = true := List.all_eq_true.mp (colDtype_int_elim cells hdt).2 a ha
      have hbi : b.isInt = true := List.all_eq_true.mp (colDtype_int_elim cells hdt).2 b hb
      cases a <;> cases b <;> simp_all [Cell.isInt, canonCell, bindCell]
  | dtFloat =>
      have hall : cells.all (fun x => x.isFloat || x.isMissing) = true := by
        rw [hdt] at hsf
        simpa using hsf
      have hai : a.isFloat = true := by
        have := List.all_eq_true.mp hall a ha
        simpa [ham] using this
      have hbi : b.isFloat = true := by
        have := List.all_eq_true.mp hall b hb
        simpa [hbm] using this
      cases a <;> cases b <;> simp_all [Cell.isFloat, canonCell, bindCell]
  | dtDatetime =>
      have hai : a.isDateCell = true := by
        have := List.all_eq_true.mp (colDtype_datetime_elim cells hdt).1 a ha
        simpa [ham] using this
      have hbi : b.isDateCell = true := by
        have := List.all_eq_true.mp (colDtype_datetime_elim cells hdt).1 b hb
        simpa [hbm] using this
      cases a <;> cases b <;> simp_all [Cell.isDateCell, canonCell, bindCell]
  | dtObject =>
      have hall : cells.all (fun x => x.isStr || x.isMissing) = true := by
        rw [hdt] at hso
        simpa using hso
      have hai : a.isStr = true := by
        have := List.all_eq_true.mp hall a ha
        simpa [ham] using this
      have hbi : b.isStr = true := by
        have := List.all_eq_true.mp hall b hb
        simpa [hbm] using this
      cases a <;> cases b <;> simp_all [Cell.isStr, canonCell, bindCell]

theorem colDefFor_name (sch : Schema) (col : String) :
    (colDefFor sch col).name = col := by
  unfold colDefFor
  by_cases h1 : (col == sch.primary_key) = true
  · rw [if_pos h1]
    by_cases h2 : (sch.primary_key == "id") = true
    · rw [if_pos h2]
    · rw [if_neg h2]
  · rw [if_neg h1]

theorem buildColDefs_names (sch : Schema) :
    (buildColDefs sch).map Column.name = sch.columns := by
  unfold buildColDefs
  rw [List.map_map]
  refine (List.map_congr_left ?_).trans (List.map_id _)
  intro col _
  exact colDefFor_name sch col

theorem colDefFor_affin (sch : Schema) (col : String)
    (hpkid : sch.primary_key = "id" → ¬ "id" ∈ sch.columns)
    (hcol : col ∈ sch.columns) :
    (colDefFor sch col).affin = _map_type_to_sqlite (dictGet sch.types col "str") ∧
    (colDefFor sch col).isPk = (col == sch.primary_key) ∧
    (colDefFor sch col).isAutoInc = false := by
  unfold colDefFor
  by_cases h1 : (col == sch.primary_key) = true
  · rw [if_pos h1]
    by_cases h2 : (sch.primary_key == "id") = true
    · exfalso
      have hc : col = sch.primary_key := by simpa using h1
      have hi : sch.primary_key = "id" := by simpa using h2
      exact hpkid hi (hi ▸ hc ▸ hcol)
    · rw [if_neg h2]
      exact ⟨rfl, by simp [h1], rfl⟩
  · rw [if_neg h1]
    refine ⟨rfl, ?_, rfl⟩
    simp only [Bool.eq_false_iff] at h1 ⊢
    simpa using h1

theorem map_type_integer_iff (ty : String) :
    (_map_type_to_sqlite ty = "INTEGER") ↔ ty = "int" := by
  unfold _map_type_to_sqlite
  by_cases h1 : (ty == "int") = true
  · simp_all
  · rw [if_neg h1]
    by_cases h2 : (ty == "float") = true
    · simp_all
    · rw [if_neg h2]
      by_cases h3 : (ty == "str") = true
      · simp_all
      · rw [if_neg h3]
        by_cases h4 : (ty == "date") = true
        · simp_all
        · rw [if_neg h4]
          simp_all

theorem dictGet_map_self (ks : List String) (g : String → String) (k : String) (d : String)
    (hnd : ks.Nodup) (hk : k ∈ ks) :
    dictGet (ks.map (fun l => (l, g l))) k d = g k := by
  induction ks with
  | nil => simp at hk
  | cons a t ih =>
      unfold dictGet
      by_cases ha : a = k
      · subst ha
        rw [List.map_cons, List.find?_cons_of_pos _ (by simp)]
      · rw [List.map_cons, List.find?_cons_of_neg _ (by simp [ha])]
        have := ih (List.nodup_cons.mp hnd).2 (by
          rcases List.mem_cons.mp hk with he | hm
          · exact absurd he.symm ha
          · exact hm)
        unfold dictGet at this
        exact this

theorem renameCols_snd (df : DataFrame) (names : List String)
    (h : names.length = df.cols.length) :
    (df.renameCols names).cols.map Prod.snd = df.cols.map Prod.snd := by
  unfold DataFrame.renameCols
  induction names generalizing df with
  | nil =>
      rcases df with ⟨cols⟩
      cases cols with
      | nil => rfl
      | cons a t => simp at h
  | cons n nt ih =>
      rcases df with ⟨cols⟩
      cases cols with
      | nil => simp at h
      | cons c ct =>
          simp only [List.zipWith_cons_cons, List.map_cons]
          refine List.cons_eq_cons.mpr ⟨rfl, ?_⟩
          exact ih ⟨ct⟩ (by simpa using h)

theorem headerFixed_snd (df : DataFrame) :
    (headerFixed df).cols.map Prod.snd = df.cols.map Prod.snd := by
  rcases hl : df.labels with _ | ⟨l, r⟩
  · simp only [headerFixed, hl]
  · simp only [headerFixed, hl]
    by_cases hu : "Unnamed".isPrefixOf l
    · rw [if_pos hu]
      exact renameCols_snd df (autoNames df.cols.length) (by simp [autoNames])
    · rw [if_neg hu]

theorem sanitizedFrame_snd (df : DataFrame) :
    (sanitizedFrame df).cols.map Prod.snd = df.cols.map Prod.snd := by
  unfold sanitizedFrame
  rw [renameCols_snd (headerFixed df) (schemaColumns df)
    (schemaColumns_length df), headerFixed_snd]

theorem cellsOf_mem_of_nodup (df : DataFrame) (name : String) (cs : List Cell)
    (hnd : df.labels.Nodup) (hmem : (name, cs) ∈ df.cols) :
    df.cellsOf name = cs := by
  have hname : name ∈ df.labels := by
    unfold DataFrame.labels
    exact List.mem_map_of_mem Prod.fst hmem
  obtain ⟨cs2, hf, hfi⟩ := find_label_of_nodup df.cols name hnd hname
  have : (name, cs) ∈ df.cols.filter (fun c => c.1 == name) :=
    List.mem_filter.mpr ⟨hmem, by simp⟩
  rw [hf] at this
  have hcs : cs = cs2 := by
    rcases List.mem_singleton.mp this with h
    exact congrArg Prod.snd h
  unfold DataFrame.cellsOf
  rw [hfi, ← hcs]

theorem range_map_getD {α β : Type} (l : List α) (d : α) (g : α → β) :
    (List.range l.length).map (fun k => g (l.getD k d)) = l.map g := by
  refine List.ext_getElem (by simp) ?_
  intro i h1 h2
  simp only [List.getElem_map, List.getElem_range]
  congr 1
  rw [List.getD_eq_getElem?_getD, List.getElem?_eq_getElem (by simpa using h2)]
  rfl

theorem enumFrom_mem_getElem {α : Type} (l : List α) (k : Nat) (p : Nat × α)
    (h : p ∈ List.enumFrom k l) : k ≤ p.1 ∧ l[p.1 - k]? = some p.2 := by
  induction l generalizing k with
  | nil => simp [List.enumFrom] at h
  | cons a t ih =>
      simp only [List.enumFrom] at h
      rcases List.mem_cons.mp h with he | h'
      · rw [he]
        simp
      · obtain ⟨hk, hg⟩ := ih (k + 1) h'
        refine ⟨by omega, ?_⟩
        have hsub : p.1 - k = (p.1 - (k + 1)) + 1 := by omega
        rw [hsub, List.getElem?_cons_succ]
        exact hg

theorem pairwise_of_filter_nodup (cells : List Cell)
    (h : (cells.filter (fun c => !c.isMissing)).Nodup) :
    List.Pairwise (fun a b => a.isMissing = false → b.isMissing = false → a ≠ b) cells := by
  induction cells with
  | nil => simp
  | cons a t ih =>
      by_cases ha : a.isMissing = true
      · rw [List.filter_cons_of_neg (by simp [ha])] at h
        refine List.Pairwise.cons ?_ (ih h)
        intro b hb hma hmb
        rw [ha] at hma
        cases hma
      · rw [List.filter_cons_of_pos (by simpa using ha)] at h
        obtain ⟨hhead, htail⟩ := List.pairwise_cons.mp h
        refine List.Pairwise.cons ?_ (ih htail)
        intro b hb hma hmb hab
        exact hhead b (List.mem_filter.mpr ⟨hb, by simp [hmb]⟩) hab

theorem colQualifies_nodup (cells : List Cell) (h : colQualifies cells = true) :
    (cells.filter (fun c => !c.isMissing)).Nodup := by
  have h2 : ((cells.filter (fun c => !c.isMissing)).dedup.length ==
      (cells.filter (fun c => !c.isMissing)).length) = true := (band_elim h).2
  rw [dedup_length_beq_nodup] at h2
  exact of_decide_eq_true h2

theorem stored_pk_pairwise (cells : List Cell) (hsafe : storeSafeCells cells = true)
    (hnodup : (cells.filter (fun c => !c.isMissing)).Nodup) :
    List.Pairwise (fun x y => y = .sNull ∨ x ≠ y)
      (cells.map (fun c => bindCell (canonCell c))) := by
  rw [List.pairwise_map]
  have hp := pairwise_of_filter_nodup cells hnodup
  refine List.Pairwise.imp_of_mem ?_ hp
  intro a b ha hb hrel
  by_cases hbm : b.isMissing = true
  · left
    have : b = .missing := by cases b <;> simp_all [Cell.isMissing]
    rw [this]
    rfl
  · right
    by_cases ham : a.isMissing = true
    · have haa : a = .missing := by cases a <;> simp_all [Cell.isMissing]
      rw [haa]
      exact fun he => bind_canon_ne_null b (by simpa using hbm) he.symm
    · exact bind_canon_inj_of_safe cells hsafe a ha b hb (by simpa using ham)
        (by simpa using hbm) (hrel (by simpa using ham) (by simpa using hbm))

theorem sqlIdentOk_clean (name : String)
    (hres : isSqlReserved (clean_column_name name) = false) :
    sqlIdentOk (clean_column_name name) = true := by
  have hpred := clean_column_name_pred name
  rcases hy : (clean_column_name name).data with _ | ⟨c, t⟩
  · exfalso
    unfold clean_column_name at hy
    by_cases he : (digitGuard (cleanedChars name.data)).isEmpty = true
    · rw [if_pos he] at hy
      exact absurd hy (by decide)
    · rw [if_neg he] at hy
      rw [List.isEmpty_iff] at he
      exact he hy
  · unfold sqlIdentOk
    have h1 : (clean_column_name name).isEmpty = false := by
      cases hie : (clean_column_name name).isEmpty with
      | false => rfl
      | true =>
          exfalso
          have hstr := (String.isEmpty_iff _).mp hie
          rw [hstr] at hy
          exact List.noConfusion hy
    have h2 : (clean_column_name name).data.all (fun c => pyIsAlnum c || c = '_') = true := by
      rw [List.all_eq_true]
      intro x hx
      exact hpred x hx
    have h3 : pyIsDigit ((clean_column_name name).data.headD 'x') = false := by
      rw [hy]
      exact clean_column_name_head_not_digit name c t hy
    rw [h1, h2, h3, hres]
    rfl

theorem zipWith_map_same {α β γ δ : Type} (l : List α) (g : α → β) (h : α → γ)
    (f : β → γ → δ) :
    List.zipWith f (l.map g) (l.map h) = l.map (fun a => f (g a) (h a)) := by
  induction l with
  | nil => rfl
  | cons a t ih => simp [ih]

theorem zip_map_same {α β γ : Type} (l : List α) (g : α → β) (h : α → γ) :
    (l.map g).zip (l.map h) = l.map (fun a => (g a, h a)) := by
  induction l with
  | nil => rfl
  | cons a t ih => simp [List.zip_cons_cons, ih]

theorem createTableValid_of (sch : Schema) (hne : sch.columns ≠ [])
    (hnd : sch.columns.Nodup) (hident : ∀ c ∈ sch.columns, sqlIdentOk c = true) :
    createTableValid sch = true := by
  unfold createTableValid
  have h1 : sch.columns.isEmpty = false := by
    cases hc : sch.columns.isEmpty with
    | false => rfl
    | true => exact absurd (List.isEmpty_iff.mp hc) hne
  rw [h1]
  rw [List.all_eq_true.mpr hident]
  rw [decide_eq_true hnd]
  rfl

theorem create_table_fresh (sch : Schema) (hvalid : createTableValid sch = true) :
    create_table sch none = ⟨some ⟨buildColDefs sch, []⟩, 1, .ok ()⟩ := by
  refine withConnection_ok none (create_table_body sch) 1 _ () ?_
  unfold create_table_body
  rw [hvalid]
  rfl

theorem insertColsFor_all (df2 : DataFrame) (sch : Schema)
    (hid2 : sch.primary_key = "id" → ¬ "id" ∈ df2.labels) :
    insertColsFor df2 sch = df2.labels := by
  unfold insertColsFor
  by_cases hpk : (sch.primary_key == "id") = true
  · have hnm : ¬ "id" ∈ df2.labels := hid2 (by simpa using hpk)
    have hcont : df2.labels.contains "id" = false := by
      cases hco : df2.labels.contains "id" with
      | false => rfl
      | true => exact absurd (by simpa using hco) hnm
    rw [hpk, hcont]
    simp only [Bool.not_false, Bool.true_and, if_true]
    refine List.filter_eq_self.mpr ?_
    intro l hl
    have : l ≠ "id" := fun he => hnm (he ▸ hl)
    simpa using this
  · have hpkf : (sch.primary_key == "id") = false := by simpa using hpk
    rw [hpkf]
    rfl

theorem inferOneType_int_elim (cells : List Cell) (h : inferOneType cells = "int") :
    cells.all Cell.isInt = true := by
  cases hdt : colDtype cells with
  | dtInt => exact (colDtype_int_elim cells hdt).2
  | dtFloat =>
      by_cases hm : cells.all Cell.isMissing = true
      · unfold inferOneType at h
        rw [if_pos hm] at h
        exact absurd h (by decide)
      · rw [inferOneType_of_dtFloat_nonmissing cells hdt (by simpa using hm)] at h
        exact absurd h (by decide)
  | dtDatetime =>
      rw [inferOneType_of_dtDatetime cells hdt] at h
      exact absurd h (by decide)
  | dtObject =>
      have hT := inferOneType_of_dtObject_text cells hdt
      rw [h] at hT
      exact absurd hT (by decide)

theorem getD_map_at {α β : Type} (l : List α) (f : α → β) (i : Nat) (d0 : α) (d : β)
    (hi : i < l.length) :
    (l.map f).getD i d = f (l.getD i d0) := by
  rw [List.getD_eq_getElem?_getD, List.getElem?_map,
    List.getElem?_eq_getElem hi, List.getD_eq_getElem?_getD,
    List.getElem?_eq_getElem hi]
  rfl

/-- Claim C7 (amended): for every loaded dataset accepted by `infer` whose
columns all have the frame's row count, whose sanitized column names are
pairwise distinct, whose columns are store-safe (a float column holds only
floats or missing cells, an object column only strings or missing cells),
whose sanitized column names are none of them SQL reserved words (which
SQLite would reject at prepare time in the interpolated, unquoted DDL),
and which has no column named `id` when the primary key is the synthetic
`"id"`, the sequence `create_table`, `bulk_load` of the sanitized dataset,
`read_all` succeeds and returns a dataset with the same number of rows in
which every value equals the source value after canonical ISO-8601 date
stringification, with missing values stored as NULL.  (Each proviso is
forced by a failure mode of the code; the counterexample shows the
non-unique-`id` one.) -/
theorem C7_round_trip_amended (df : DataFrame) (sch : Schema)
    (hsch : detect_schema df = .ok sch)
    (hwf : ∀ p ∈ df.cols, p.2.length = df.nRows)
    (hnd : (schemaColumns df).Nodup)
    (hres : ∀ c ∈ schemaColumns df, isSqlReserved c = false)
    (hid : sch.primary_key = "id" → ¬ "id" ∈ sch.columns)
    (hsafe : ∀ p ∈ df.cols, storeSafeCells p.2 = true) :
    (create_table sch none).res = .ok () ∧
    (insert_data (sanitizedFrame df) sch (create_table sch none).db).res = .ok () ∧
    ∃ dfr,
      read_all (insert_data (sanitizedFrame df) sch (create_table sch none).db).db
        = ⟨(insert_data (sanitizedFrame df) sch (create_table sch none).db).db, 1, .ok dfr⟩ ∧
      dfr.nRows = df.nRows ∧
      dfr.cols = (sanitizedFrame df).cols.map (fun p => (p.1, p.2.map canonCell)) := by
  have hdims : df.nRows ≠ 0 ∧ df.cols ≠ [] := by
    by_contra hcon
    have hdim : df.nRows = 0 ∨ df.cols = [] := by tauto
    have hemp : df.isEmptyDf = true := by
      rcases hdim with h | h
      · simp [DataFrame.isEmptyDf, h]
      · simp [DataFrame.isEmptyDf, h]
    have herr : detect_schema df = .error () := by simp [detect_schema, hemp]
    rw [herr] at hsch
    exact Except.noConfusion hsch
  obtain ⟨pk, hds, hq⟩ := detect_schema_ok_shape df hnd hdims.1 hdims.2
  rw [hsch] at hds
  have hschEq : sch = (⟨schemaColumns df, (schemaColumns df).map (fun l => (l, inferOneType ((sanitizedFrame df).cellsOf l))), pk⟩ : Schema) := Except.ok.inj hds
  subst hschEq
  have hlab2 : (sanitizedFrame df).labels = schemaColumns df := sanitizedFrame_labels df
  have hnd2 : (sanitizedFrame df).labels.Nodup := by rw [hlab2]; exact hnd
  have hnrows2 : (sanitizedFrame df).nRows = df.nRows := by
    have hsnd := sanitizedFrame_snd df
    rcases hdc : df.cols with _ | ⟨p, pt⟩
    · exact absurd hdc hdims.2
    rcases hdc2 : (sanitizedFrame df).cols with _ | ⟨q, qt⟩
    · rw [hdc, hdc2] at hsnd
      simp at hsnd
    · rw [hdc, hdc2] at hsnd
      simp only [List.map_cons] at hsnd
      have hq2 : q.2 = p.2 := (List.cons_eq_cons.mp hsnd).1
      unfold DataFrame.nRows
      rw [hdc2, hdc]
      show q.2.length = p.2.length
      rw [hq2]
  have hcellsEq : ∀ l ∈ (sanitizedFrame df).labels,
      (sanitizedFrame df).cellsOf l ∈ df.cols.map Prod.snd := by
    intro l hl
    obtain ⟨p, hp, hpl⟩ := List.mem_map.mp hl
    have hmemp : (l, p.2) ∈ (sanitizedFrame df).cols := by
      rw [← hpl]
      exact hp
    rw [cellsOf_mem_of_nodup _ l p.2 hnd2 hmemp]
    rw [← sanitizedFrame_snd df]
    exact List.mem_map_of_mem Prod.snd hp
  have hcellsLen : ∀ l ∈ (sanitizedFrame df).labels,
      ((sanitizedFrame df).cellsOf l).length = df.nRows := by
    intro l hl
    obtain ⟨p, hp, hps⟩ := List.mem_map.mp (hcellsEq l hl)
    rw [← hps]
    exact hwf p hp
  have hcellsSafe : ∀ l ∈ (sanitizedFrame df).labels,
      storeSafeCells ((sanitizedFrame df).cellsOf l) = true := by
    intro l hl
    obtain ⟨p, hp, hps⟩ := List.mem_map.mp (hcellsEq l hl)
    rw [← hps]
    exact hsafe p hp
  have hcolsne : schemaColumns df ≠ [] := by
    intro he
    have hlen := schemaColumns_length df
    rw [he, headerFixed_length] at hlen
    exact hdims.2 (List.length_eq_zero.mp hlen.symm)
  have hident : ∀ c ∈ schemaColumns df, sqlIdentOk c = true := by
    intro c hc
    obtain ⟨l0, _, hl0⟩ := List.mem_map.mp hc
    rw [← hl0]
    exact sqlIdentOk_clean l0 (by rw [hl0]; exact hres c hc)
  have hvalid : createTableValid (⟨schemaColumns df, (schemaColumns df).map (fun l => (l, inferOneType ((sanitizedFrame df).cellsOf l))), pk⟩ : Schema) = true :=
    createTableValid_of _ hcolsne hnd hident
  have hct := create_table_fresh _ hvalid
  have haffin : ∀ l ∈ schemaColumns df,
      (colDefFor (⟨schemaColumns df, (schemaColumns df).map (fun l => (l, inferOneType ((sanitizedFrame df).cellsOf l))), pk⟩ : Schema) l).affin
        = _map_type_to_sqlite (inferOneType ((sanitizedFrame df).cellsOf l)) := by
    intro l hl
    rw [(colDefFor_affin _ l hid hl).1]
    congr 1
    exact dictGet_map_self (schemaColumns df)
      (fun l => inferOneType ((sanitizedFrame df).cellsOf l)) l "str" hnd hl
  have hrowEq : ∀ k, k < (sanitizedFrame df).nRows →
      List.zipWith (fun c v => applyAffinity c.affin v) (buildColDefs (⟨schemaColumns df, (schemaColumns df).map (fun l => (l, inferOneType ((sanitizedFrame df).cellsOf l))), pk⟩ : Schema))
        (dfRow (sanitizedFrame df) (schemaColumns df) k)
      = (schemaColumns df).map
          (fun l => bindCell (canonCell (((sanitizedFrame df).cellsOf l).getD k .missing))) := by
    intro k hk
    unfold dfRow buildColDefs
    rw [zipWith_map_same]
    refine List.map_congr_left ?_
    intro l hl
    have hlmem : l ∈ (sanitizedFrame df).labels := by rw [hlab2]; exact hl
    have hmemcell : ((sanitizedFrame df).cellsOf l).getD k .missing
        ∈ (sanitizedFrame df).cellsOf l := by
      have hlen := hcellsLen l hlmem
      have hklt : k < ((sanitizedFrame df).cellsOf l).length := by
        rw [hlen, ← hnrows2]
        exact hk
      rw [List.getD_eq_getElem?_getD, List.getElem?_eq_getElem hklt]
      exact List.getElem_mem _
    rw [haffin l hl]
    exact cell_store_roundtrip _ (hcellsSafe l hlmem) _ hmemcell
  have hstore_col : ∀ i, i < (schemaColumns df).length →
      ((dfBindRows (sanitizedFrame df) (schemaColumns df)).map
          (fun r => List.zipWith (fun c v => applyAffinity c.affin v)
            (buildColDefs (⟨schemaColumns df, (schemaColumns df).map (fun l => (l, inferOneType ((sanitizedFrame df).cellsOf l))), pk⟩ : Schema)) r)).map (fun q => q.getD i .sNull)
      = ((sanitizedFrame df).cellsOf ((schemaColumns df).getD i "")).map
          (fun c => bindCell (canonCell c)) := by
    intro i hi
    unfold dfBindRows
    rw [List.map_map, List.map_map]
    have hfn : ∀ k ∈ List.range (sanitizedFrame df).nRows,
        (((fun q => q.getD i .sNull) ∘ (fun r => List.zipWith
            (fun c v => applyAffinity c.affin v) (buildColDefs (⟨schemaColumns df, (schemaColumns df).map (fun l => (l, inferOneType ((sanitizedFrame df).cellsOf l))), pk⟩ : Schema)) r)) ∘
          dfRow (sanitizedFrame df) (schemaColumns df)) k
        = bindCell (canonCell
            (((sanitizedFrame df).cellsOf ((schemaColumns df).getD i "")).getD k .missing)) := by
      intro k hk
      have hkN : k < (sanitizedFrame df).nRows := List.mem_range.mp hk
      show (List.zipWith (fun c v => applyAffinity c.affin v) (buildColDefs (⟨schemaColumns df, (schemaColumns df).map (fun l => (l, inferOneType ((sanitizedFrame df).cellsOf l))), pk⟩ : Schema))
          (dfRow (sanitizedFrame df) (schemaColumns df) k)).getD i .sNull = _
      rw [hrowEq k hkN]
      exact getD_map_at (schemaColumns df) _ i "" SCell.sNull hi
    rw [List.map_congr_left hfn]
    have hgmem : (schemaColumns df).getD i "" ∈ (sanitizedFrame df).labels := by
      rw [hlab2, List.getD_eq_getElem?_getD, List.getElem?_eq_getElem hi]
      exact List.getElem_mem _
    have hlencells : ((sanitizedFrame df).cellsOf ((schemaColumns df).getD i "")).length
        = (sanitizedFrame df).nRows := by
      rw [hcellsLen _ hgmem, hnrows2]
    rw [← hlencells]
    exact range_map_getD _ Cell.missing (fun c => bindCell (canonCell c))
  have hpw : ∀ pi ∈ (buildColDefs (⟨schemaColumns df, (schemaColumns df).map (fun l => (l, inferOneType ((sanitizedFrame df).cellsOf l))), pk⟩ : Schema)).enum.find? (fun ic => ic.2.isPk),
      List.Pairwise (fun a b : SCell => b = .sNull ∨ a ≠ b)
        (([] ++ (dfBindRows (sanitizedFrame df) (schemaColumns df)).map
            (fun r => List.zipWith (fun (c : Column) v => applyAffinity c.affin v)
              (buildColDefs (⟨schemaColumns df, (schemaColumns df).map (fun l => (l, inferOneType ((sanitizedFrame df).cellsOf l))), pk⟩ : Schema)) r)).map
          (fun (q : List SCell) => q.getD pi.1 .sNull)) := by
    intro pi hpi
    have hfind : (buildColDefs (⟨schemaColumns df, (schemaColumns df).map (fun l => (l, inferOneType ((sanitizedFrame df).cellsOf l))), pk⟩ : Schema)).enum.find? (fun ic => ic.2.isPk) = some pi :=
      hpi
    obtain ⟨-, hgetsome⟩ := enumFrom_mem_getElem _ 0 pi (List.mem_of_find?_eq_some hfind)
    simp only [Nat.sub_zero] at hgetsome
    have hmap_get : (buildColDefs (⟨schemaColumns df, (schemaColumns df).map (fun l => (l, inferOneType ((sanitizedFrame df).cellsOf l))), pk⟩ : Schema))[pi.1]?
        = ((schemaColumns df)[pi.1]?).map (colDefFor (⟨schemaColumns df, (schemaColumns df).map (fun l => (l, inferOneType ((sanitizedFrame df).cellsOf l))), pk⟩ : Schema)) := by
      unfold buildColDefs
      exact List.getElem?_map _ _ _
    rw [hmap_get] at hgetsome
    rcases hl0get : (schemaColumns df)[pi.1]? with _ | l0
    · rw [hl0get] at hgetsome
      exact Option.noConfusion hgetsome
    rw [hl0get] at hgetsome
    have hpi2 : pi.2 = colDefFor (⟨schemaColumns df, (schemaColumns df).map (fun l => (l, inferOneType ((sanitizedFrame df).cellsOf l))), pk⟩ : Schema) l0 := (Option.some.inj hgetsome).symm
    have hl0mem : l0 ∈ schemaColumns df := by
      have := List.getElem?_eq_some_iff.mp hl0get
      obtain ⟨hlt, hget⟩ := this
      rw [← hget]
      exact List.getElem_mem _
    have hl0lt : pi.1 < (schemaColumns df).length := (List.getElem?_eq_some_iff.mp hl0get).1
    have hisPk : pi.2.isPk = true := by simpa using List.find?_some hfind
    rw [hpi2] at hisPk
    rw [(colDefFor_affin _ l0 hid hl0mem).2.1] at hisPk
    have hl0pk : l0 = pk := by simpa using hisPk
    have hpkmem : pk ∈ schemaColumns df := hl0pk ▸ hl0mem
    have hqual : colQualifies ((sanitizedFrame df).cellsOf pk) = true := by
      rcases hq with hq1 | hq2
      · exact absurd (hq1 ▸ hpkmem) (hid hq1)
      · exact hq2.2
    rw [List.nil_append, hstore_col pi.1 hl0lt]
    have hgetD : (schemaColumns df).getD pi.1 "" = pk := by
      rw [List.getD_eq_getElem?_getD, hl0get]
      exact hl0pk
    rw [hgetD]
    exact stored_pk_pairwise _ (hcellsSafe pk (by rw [hlab2]; exact hpkmem))
      (colQualifies_nodup _ hqual)
  have hlenrows : ∀ r ∈ dfBindRows (sanitizedFrame df) (schemaColumns df),
      r.length = (buildColDefs (⟨schemaColumns df, (schemaColumns df).map (fun l => (l, inferOneType ((sanitizedFrame df).cellsOf l))), pk⟩ : Schema)).length := by
    intro r hr
    obtain ⟨k, _, hkr⟩ := List.mem_map.mp hr
    rw [← hkr]
    unfold dfRow buildColDefs
    simp
  have halias2 : ∀ r ∈ dfBindRows (sanitizedFrame df) (schemaColumns df),
      ∀ p ∈ (buildColDefs (⟨schemaColumns df, (schemaColumns df).map (fun l => (l, inferOneType ((sanitizedFrame df).cellsOf l))), pk⟩ : Schema)).zip r, Table.rowidAlias p.1 = true →
        ∃ n, applyAffinity p.1.affin p.2 = .sInt n := by
    intro r hr p hp halias
    obtain ⟨k, hkmem, hkr⟩ := List.mem_map.mp hr
    have hkN : k < (sanitizedFrame df).nRows := List.mem_range.mp hkmem
    rw [← hkr] at hp
    rw [show (buildColDefs (⟨schemaColumns df, (schemaColumns df).map (fun l => (l, inferOneType ((sanitizedFrame df).cellsOf l))), pk⟩ : Schema)).zip (dfRow (sanitizedFrame df) (schemaColumns df) k)
        = (schemaColumns df).map (fun l => (colDefFor (⟨schemaColumns df, (schemaColumns df).map (fun l => (l, inferOneType ((sanitizedFrame df).cellsOf l))), pk⟩ : Schema) l,
            bindCell (((sanitizedFrame df).cellsOf l).getD k .missing)))
      from zip_map_same (schemaColumns df) _ _] at hp
    obtain ⟨l, hl, hpl⟩ := List.mem_map.mp hp
    rw [← hpl] at halias ⊢
    obtain ⟨hisPk, hINT⟩ := band_elim halias
    have haffINT : (colDefFor (⟨schemaColumns df, (schemaColumns df).map (fun l => (l, inferOneType ((sanitizedFrame df).cellsOf l))), pk⟩ : Schema) l).affin = "INTEGER" := by simpa using hINT
    have hty2 : inferOneType ((sanitizedFrame df).cellsOf l) = "int" := by
      have h1 := (colDefFor_affin (⟨schemaColumns df, (schemaColumns df).map (fun l => (l, inferOneType ((sanitizedFrame df).cellsOf l))), pk⟩ : Schema) l hid hl).1
      rw [h1] at haffINT
      have h2 := (map_type_integer_iff _).mp haffINT
      exact (dictGet_map_self (schemaColumns df)
        (fun l => inferOneType ((sanitizedFrame df).cellsOf l)) l "str" hnd hl).symm.trans h2
    have hallint := inferOneType_int_elim _ hty2
    have hlmem : l ∈ (sanitizedFrame df).labels := by rw [hlab2]; exact hl
    have hmemcell : ((sanitizedFrame df).cellsOf l).getD k .missing
        ∈ (sanitizedFrame df).cellsOf l := by
      have hklt : k < ((sanitizedFrame df).cellsOf l).length := by
        rw [hcellsLen l hlmem, ← hnrows2]
        exact hkN
      rw [List.getD_eq_getElem?_getD, List.getElem?_eq_getElem hklt]
      exact List.getElem_mem _
    have hint := List.all_eq_true.mp hallint _ hmemcell
    obtain ⟨n, hn⟩ : ∃ n, ((sanitizedFrame df).cellsOf l).getD k .missing = .intV n := by
      cases hcv : ((sanitizedFrame df).cellsOf l).getD k .missing with
      | intV m => exact ⟨m, rfl⟩
      | floatV m fr => rw [hcv] at hint; exact Bool.noConfusion hint
      | dateV s => rw [hcv] at hint; exact Bool.noConfusion hint
      | strV s => rw [hcv] at hint; exact Bool.noConfusion hint
      | missing => rw [hcv] at hint; exact Bool.noConfusion hint
    refine ⟨n, ?_⟩
    show applyAffinity (colDefFor (⟨schemaColumns df, (schemaColumns df).map (fun l => (l, inferOneType ((sanitizedFrame df).cellsOf l))), pk⟩ : Schema) l).affin
      (bindCell (((sanitizedFrame df).cellsOf l).getD k .missing)) = .sInt n
    rw [hn, haffINT]
    rfl
  have hnames2 : (buildColDefs (⟨schemaColumns df, (schemaColumns df).map (fun l => (l, inferOneType ((sanitizedFrame df).cellsOf l))), pk⟩ : Schema)).map Column.name = schemaColumns df :=
    buildColDefs_names (⟨schemaColumns df, (schemaColumns df).map (fun l => (l, inferOneType ((sanitizedFrame df).cellsOf l))), pk⟩ : Schema)
  have hndnames : ((buildColDefs (⟨schemaColumns df, (schemaColumns df).map (fun l => (l, inferOneType ((sanitizedFrame df).cellsOf l))), pk⟩ : Schema)).map Column.name).Nodup := by
    rw [hnames2]
    exact hnd
  have hbatch := execInsertMany_ok (buildColDefs (⟨schemaColumns df, (schemaColumns df).map (fun l => (l, inferOneType ((sanitizedFrame df).cellsOf l))), pk⟩ : Schema)) []
    (dfBindRows (sanitizedFrame df) (schemaColumns df)) hndnames hlenrows halias2 hpw
  rw [hnames2, List.nil_append] at hbatch
  have hcolsSel : insertColsFor (sanitizedFrame df) (⟨schemaColumns df, (schemaColumns df).map (fun l => (l, inferOneType ((sanitizedFrame df).cellsOf l))), pk⟩ : Schema) = schemaColumns df := by
    rw [insertColsFor_all (sanitizedFrame df) (⟨schemaColumns df, (schemaColumns df).map (fun l => (l, inferOneType ((sanitizedFrame df).cellsOf l))), pk⟩ : Schema) (fun hpk => by rw [hlab2]; exact hid hpk)]
    exact hlab2
  have hib : insert_body (sanitizedFrame df) (⟨schemaColumns df, (schemaColumns df).map (fun l => (l, inferOneType ((sanitizedFrame df).cellsOf l))), pk⟩ : Schema)
      (some (⟨buildColDefs (⟨schemaColumns df, (schemaColumns df).map (fun l => (l, inferOneType ((sanitizedFrame df).cellsOf l))), pk⟩ : Schema), []⟩ : Table))
      = (1, .ok (some (⟨buildColDefs (⟨schemaColumns df, (schemaColumns df).map (fun l => (l, inferOneType ((sanitizedFrame df).cellsOf l))), pk⟩ : Schema), (dfBindRows (sanitizedFrame df) (schemaColumns df)).map (fun r => List.zipWith (fun c v => applyAffinity c.affin v) (buildColDefs (⟨schemaColumns df, (schemaColumns df).map (fun l => (l, inferOneType ((sanitizedFrame df).cellsOf l))), pk⟩ : Schema)) r)⟩ : Table), ())) := by
    simp only [insert_body, hcolsSel]
    rw [hbatch]
  have hdb1 : (create_table (⟨schemaColumns df, (schemaColumns df).map (fun l => (l, inferOneType ((sanitizedFrame df).cellsOf l))), pk⟩ : Schema) none).db = some (⟨buildColDefs (⟨schemaColumns df, (schemaColumns df).map (fun l => (l, inferOneType ((sanitizedFrame df).cellsOf l))), pk⟩ : Schema), []⟩ : Table) := by
    rw [hct]
  have hins : insert_data (sanitizedFrame df) (⟨schemaColumns df, (schemaColumns df).map (fun l => (l, inferOneType ((sanitizedFrame df).cellsOf l))), pk⟩ : Schema) (create_table (⟨schemaColumns df, (schemaColumns df).map (fun l => (l, inferOneType ((sanitizedFrame df).cellsOf l))), pk⟩ : Schema) none).db
      = ⟨some (⟨buildColDefs (⟨schemaColumns df, (schemaColumns df).map (fun l => (l, inferOneType ((sanitizedFrame df).cellsOf l))), pk⟩ : Schema), (dfBindRows (sanitizedFrame df) (schemaColumns df)).map (fun r => List.zipWith (fun c v => applyAffinity c.affin v) (buildColDefs (⟨schemaColumns df, (schemaColumns df).map (fun l => (l, inferOneType ((sanitizedFrame df).cellsOf l))), pk⟩ : Schema)) r)⟩ : Table), 1, .ok ()⟩ := by
    rw [hdb1]
    exact withConnection_ok _ _ 1 _ () hib
  have hdb2 : (insert_data (sanitizedFrame df) (⟨schemaColumns df, (schemaColumns df).map (fun l => (l, inferOneType ((sanitizedFrame df).cellsOf l))), pk⟩ : Schema) (create_table (⟨schemaColumns df, (schemaColumns df).map (fun l => (l, inferOneType ((sanitizedFrame df).cellsOf l))), pk⟩ : Schema) none).db).db
      = some (⟨buildColDefs (⟨schemaColumns df, (schemaColumns df).map (fun l => (l, inferOneType ((sanitizedFrame df).cellsOf l))), pk⟩ : Schema), (dfBindRows (sanitizedFrame df) (schemaColumns df)).map (fun r => List.zipWith (fun c v => applyAffinity c.affin v) (buildColDefs (⟨schemaColumns df, (schemaColumns df).map (fun l => (l, inferOneType ((sanitizedFrame df).cellsOf l))), pk⟩ : Schema)) r)⟩ : Table) := by
    rw [hins]
  have hrb : read_body (some (⟨buildColDefs (⟨schemaColumns df, (schemaColumns df).map (fun l => (l, inferOneType ((sanitizedFrame df).cellsOf l))), pk⟩ : Schema), (dfBindRows (sanitizedFrame df) (schemaColumns df)).map (fun r => List.zipWith (fun c v => applyAffinity c.affin v) (buildColDefs (⟨schemaColumns df, (schemaColumns df).map (fun l => (l, inferOneType ((sanitizedFrame df).cellsOf l))), pk⟩ : Schema)) r)⟩ : Table))
      = (1, .ok (some (⟨buildColDefs (⟨schemaColumns df, (schemaColumns df).map (fun l => (l, inferOneType ((sanitizedFrame df).cellsOf l))), pk⟩ : Schema), (dfBindRows (sanitizedFrame df) (schemaColumns df)).map (fun r => List.zipWith (fun c v => applyAffinity c.affin v) (buildColDefs (⟨schemaColumns df, (schemaColumns df).map (fun l => (l, inferOneType ((sanitizedFrame df).cellsOf l))), pk⟩ : Schema)) r)⟩ : Table), (⟨(buildColDefs (⟨schemaColumns df, (schemaColumns df).map (fun l => (l, inferOneType ((sanitizedFrame df).cellsOf l))), pk⟩ : Schema)).enum.map (fun ic => (ic.2.name, ((dfBindRows (sanitizedFrame df) (schemaColumns df)).map (fun r => List.zipWith (fun c v => applyAffinity c.affin v) (buildColDefs (⟨schemaColumns df, (schemaColumns df).map (fun l => (l, inferOneType ((sanitizedFrame df).cellsOf l))), pk⟩ : Schema)) r)).map (fun r => readCell (r.getD ic.1 .sNull))))⟩ : DataFrame))) := rfl
  have hra : read_all (insert_data (sanitizedFrame df) (⟨schemaColumns df, (schemaColumns df).map (fun l => (l, inferOneType ((sanitizedFrame df).cellsOf l))), pk⟩ : Schema) (create_table (⟨schemaColumns df, (schemaColumns df).map (fun l => (l, inferOneType ((sanitizedFrame df).cellsOf l))), pk⟩ : Schema) none).db).db
      = ⟨(insert_data (sanitizedFrame df) (⟨schemaColumns df, (schemaColumns df).map (fun l => (l, inferOneType ((sanitizedFrame df).cellsOf l))), pk⟩ : Schema) (create_table (⟨schemaColumns df, (schemaColumns df).map (fun l => (l, inferOneType ((sanitizedFrame df).cellsOf l))), pk⟩ : Schema) none).db).db, 1,
          .ok (⟨(buildColDefs (⟨schemaColumns df, (schemaColumns df).map (fun l => (l, inferOneType ((sanitizedFrame df).cellsOf l))), pk⟩ : Schema)).enum.map (fun ic => (ic.2.name, ((dfBindRows (sanitizedFrame df) (schemaColumns df)).map (fun r => List.zipWith (fun c v => applyAffinity c.affin v) (buildColDefs (⟨schemaColumns df, (schemaColumns df).map (fun l => (l, inferOneType ((sanitizedFrame df).cellsOf l))), pk⟩ : Schema)) r)).map (fun r => readCell (r.getD ic.1 .sNull))))⟩ : DataFrame)⟩ := by
    rw [hdb2]
    exact withConnection_ok _ _ 1 _ _ hrb
  have hcolsFinal : (buildColDefs (⟨schemaColumns df, (schemaColumns df).map (fun l => (l, inferOneType ((sanitizedFrame df).cellsOf l))), pk⟩ : Schema)).enum.map (fun ic => (ic.2.name, ((dfBindRows (sanitizedFrame df) (schemaColumns df)).map (fun r => List.zipWith (fun c v => applyAffinity c.affin v) (buildColDefs (⟨schemaColumns df, (schemaColumns df).map (fun l => (l, inferOneType ((sanitizedFrame df).cellsOf l))), pk⟩ : Schema)) r)).map (fun r => readCell (r.getD ic.1 .sNull))))
      = (sanitizedFrame df).cols.map (fun p => (p.1, p.2.map canonCell)) := by
    refine List.ext_getElem ?_ ?_
    · simp only [List.length_map, List.enum_length, buildColDefs]
      rw [← hlab2]
      exact List.length_map _ _
    · intro j h1 h2
      have hj2 : j < (buildColDefs (⟨schemaColumns df, (schemaColumns df).map (fun l => (l, inferOneType ((sanitizedFrame df).cellsOf l))), pk⟩ : Schema)).length := by simpa using h1
      have hjc : j < (schemaColumns df).length := by simpa [buildColDefs] using hj2
      have hjcols : j < (sanitizedFrame df).cols.length := by simpa using h2
      have h3 : (schemaColumns df)[j]? = some ((sanitizedFrame df).cols[j].1) := by
        rw [← hlab2]
        unfold DataFrame.labels
        rw [List.getElem?_map, List.getElem?_eq_getElem hjcols]
        rfl
      have hfst_j : (schemaColumns df)[j] = (sanitizedFrame df).cols[j].1 := by
        rw [List.getElem?_eq_getElem hjc] at h3
        exact Option.some.inj h3
      have hgj : (schemaColumns df).getD j "" = (sanitizedFrame df).cols[j].1 := by
        rw [List.getD_eq_getElem?_getD, List.getElem?_eq_getElem hjc]
        exact hfst_j
      have hc2 : (sanitizedFrame df).cellsOf ((sanitizedFrame df).cols[j].1)
          = (sanitizedFrame df).cols[j].2 :=
        cellsOf_mem_of_nodup _ _ _ hnd2 (List.getElem_mem hjcols)
      have hbj : (buildColDefs (⟨schemaColumns df, (schemaColumns df).map (fun l => (l, inferOneType ((sanitizedFrame df).cellsOf l))), pk⟩ : Schema))[j] = colDefFor (⟨schemaColumns df, (schemaColumns df).map (fun l => (l, inferOneType ((sanitizedFrame df).cellsOf l))), pk⟩ : Schema) ((schemaColumns df)[j]) := by
        simp only [buildColDefs, List.getElem_map]
      have h1map : (((dfBindRows (sanitizedFrame df) (schemaColumns df)).map (fun r => List.zipWith (fun c v => applyAffinity c.affin v) (buildColDefs (⟨schemaColumns df, (schemaColumns df).map (fun l => (l, inferOneType ((sanitizedFrame df).cellsOf l))), pk⟩ : Schema)) r)).map (fun (q : List SCell) => q.getD j .sNull)).map readCell
          = ((dfBindRows (sanitizedFrame df) (schemaColumns df)).map (fun r => List.zipWith (fun c v => applyAffinity c.affin v) (buildColDefs (⟨schemaColumns df, (schemaColumns df).map (fun l => (l, inferOneType ((sanitizedFrame df).cellsOf l))), pk⟩ : Schema)) r)).map (fun r => readCell (r.getD j .sNull)) :=
        List.map_map readCell (fun q => q.getD j .sNull) ((dfBindRows (sanitizedFrame df) (schemaColumns df)).map (fun r => List.zipWith (fun c v => applyAffinity c.affin v) (buildColDefs (⟨schemaColumns df, (schemaColumns df).map (fun l => (l, inferOneType ((sanitizedFrame df).cellsOf l))), pk⟩ : Schema)) r))
      have hmm2 : ((dfBindRows (sanitizedFrame df) (schemaColumns df)).map (fun r => List.zipWith (fun c v => applyAffinity c.affin v) (buildColDefs (⟨schemaColumns df, (schemaColumns df).map (fun l => (l, inferOneType ((sanitizedFrame df).cellsOf l))), pk⟩ : Schema)) r)).map (fun r => readCell (r.getD j .sNull))
          = ((sanitizedFrame df).cellsOf ((schemaColumns df).getD j "")).map canonCell := by
        rw [← h1map, hstore_col j hjc, List.map_map]
        refine List.map_congr_left ?_
        intro c _
        exact readCell_bind_canon c
      have hsnd_j : ((dfBindRows (sanitizedFrame df) (schemaColumns df)).map (fun r => List.zipWith (fun c v => applyAffinity c.affin v) (buildColDefs (⟨schemaColumns df, (schemaColumns df).map (fun l => (l, inferOneType ((sanitizedFrame df).cellsOf l))), pk⟩ : Schema)) r)).map (fun r => readCell (r.getD j .sNull))
          = ((sanitizedFrame df).cols[j].2).map canonCell := by
        rw [hmm2, hgj, hc2]
      simp only [List.getElem_map, List.getElem_enum]
      rw [hbj, colDefFor_name, hfst_j, hsnd_j]
  have hnrfinal : ((⟨(sanitizedFrame df).cols.map (fun p => (p.1, p.2.map canonCell))⟩ : DataFrame)).nRows
      = df.nRows := by
    rw [← hnrows2]
    unfold DataFrame.nRows
    rcases hdc : (sanitizedFrame df).cols with _ | ⟨p, t⟩
    · rfl
    · simp
  refine ⟨?_, ?_, (⟨(buildColDefs (⟨schemaColumns df, (schemaColumns df).map (fun l => (l, inferOneType ((sanitizedFrame df).cellsOf l))), pk⟩ : Schema)).enum.map (fun ic => (ic.2.name, ((dfBindRows (sanitizedFrame df) (schemaColumns df)).map (fun r => List.zipWith (fun c v => applyAffinity c.affin v) (buildColDefs (⟨schemaColumns df, (schemaColumns df).map (fun l => (l, inferOneType ((sanitizedFrame df).cellsOf l))), pk⟩ : Schema)) r)).map (fun r => readCell (r.getD ic.1 .sNull))))⟩ : DataFrame), hra, ?_, hcolsFinal⟩
  · rw [hct]
  · rw [hins]
  · have hDfr : (⟨(buildColDefs (⟨schemaColumns df, (schemaColumns df).map (fun l => (l, inferOneType ((sanitizedFrame df).cellsOf l))), pk⟩ : Schema)).enum.map (fun ic => (ic.2.name, ((dfBindRows (sanitizedFrame df) (schemaColumns df)).map (fun r => List.zipWith (fun c v => applyAffinity c.affin v) (buildColDefs (⟨schemaColumns df, (schemaColumns df).map (fun l => (l, inferOneType ((sanitizedFrame df).cellsOf l))), pk⟩ : Schema)) r)).map (fun r => readCell (r.getD ic.1 .sNull))))⟩ : DataFrame)
        = ⟨(sanitizedFrame df).cols.map (fun p => (p.1, p.2.map canonCell))⟩ :=
      congrArg DataFrame.mk hcolsFinal
    rw [hDfr]
    exact hnrfinal


theorem C7_round_trip_amended_witness :
    detect_schema (⟨[("name", [Cell.strV "ab", Cell.strV "cd"])]⟩ : DataFrame) = .ok (⟨["name"], [("name", "str")], "name"⟩ : Schema) ∧
    ((create_table (⟨["name"], [("name", "str")], "name"⟩ : Schema) none).res = .ok () ∧
     (insert_data (sanitizedFrame (⟨[("name", [Cell.strV "ab", Cell.strV "cd"])]⟩ : DataFrame)) (⟨["name"], [("name", "str")], "name"⟩ : Schema) (create_table (⟨["name"], [("name", "str")], "name"⟩ : Schema) none).db).res = .ok () ∧
     ∃ dfr,
       read_all (insert_data (sanitizedFrame (⟨[("name", [Cell.strV "ab", Cell.strV "cd"])]⟩ : DataFrame)) (⟨["name"], [("name", "str")], "name"⟩ : Schema) (create_table (⟨["name"], [("name", "str")], "name"⟩ : Schema) none).db).db = ⟨(insert_data (sanitizedFrame (⟨[("name", [Cell.strV "ab", Cell.strV "cd"])]⟩ : DataFrame)) (⟨["name"], [("name", "str")], "name"⟩ : Schema) (create_table (⟨["name"], [("name", "str")], "name"⟩ : Schema) none).db).db, 1, .ok dfr⟩ ∧
       dfr.nRows = (⟨[("name", [Cell.strV "ab", Cell.strV "cd"])]⟩ : DataFrame).nRows ∧
       dfr.cols = (sanitizedFrame (⟨[("name", [Cell.strV "ab", Cell.strV "cd"])]⟩ : DataFrame)).cols.map (fun p => (p.1, p.2.map canonCell))) :=
  ⟨rfl, C7_round_trip_amended (⟨[("name", [Cell.strV "ab", Cell.strV "cd"])]⟩ : DataFrame) (⟨["name"], [("name", "str")], "name"⟩ : Schema) rfl (by decide) (by decide) (by decide) (by decide) (by decide)⟩

end ExcelApp
